import Mathlib

/-!
Shallow embedding of the `png_decoder` repository (Rust) for specification
checking.

Source files embedded:
* `src/src/png/png.rs`   — byte cursor (`Stream`), primitive readers, `Png` state
* `src/src/png/chunks.rs` — the 21 chunk-record structures and their decoders
* `src/main.rs`          — the chunk-type registry and the decode loop

Modelling conventions:
* Bytes and machine integers (`u8`, `u16`, `u32`, `usize`) are `Nat`; shifts
  and ors mirror the Rust expressions (on byte values < 256 they agree with
  the machine operations, and no embedded expression exceeds its width).
* Rust `u32` subtraction is checked: in a debug build an underflow panics
  ("attempt to subtract with overflow").  The embedding surfaces that panic
  as the distinguished outcome `DecodeError.arithmeticOverflow`.
* Rust `String` values are represented by their UTF-8 byte lists; a
  `String::from_utf8` call is a validity check on that list.
* Fallible methods mutating `&mut self` become actions in `DecodeM`, the
  state-with-errors monad `Png → Except DecodeError α × Png`: on an error
  the state reached so far is kept, exactly as a Rust `?` return leaves
  `self` with every already-performed read applied.
-/

/-- Error outcomes of the decoder.  Each constructor corresponds to one
`Err`/panic site in the source. -/
inductive DecodeError where
  /-- `"Range is out of bounds"` from `Stream::read_bytes_sequential`. -/
  | outOfBounds
  /-- `"Unexpected chunk type: None"` from the decode loop's registry lookup. -/
  | unknownChunkType
  /-- `"Unknown color type"` from `IDHRChunk::new`. -/
  | unknownColorType
  /-- `"Unknown interlace method"` from `IDHRChunk::new`. -/
  | unknownInterlaceMethod
  /-- `"Invalid chunk length for PLTE"` from `PLTEChunk::new`. -/
  | invalidPLTELength
  /-- `"IDHR chunk not found"` from `bKGDChunk::new`. -/
  | IDHRNotFound
  /-- `"Invalid value for rendering intent"` from `sRGBChunk::new`. -/
  | invalidRenderingIntent
  /-- The dead-code `"Not enough bytes"` checks in `get_u8`/`get_u16`/`get_u32`
  and the big-endian readers. -/
  | notEnoughBytes
  /-- A failed `String::from_utf8`. -/
  | invalidUtf8
  /-- Debug-build panic of an underflowing `u32` subtraction. -/
  | arithmeticOverflow
deriving Repr, DecidableEq

/-- `struct Stream { sequential_counter: usize }` from `png.rs` (`Stream`
itself is taken by a core Lean class, hence the prime). -/
structure PngStream where
  sequential_counter : Nat
deriving Repr, DecidableEq

/-- `Stream::new` (via `Default`): counter starts at 0. -/
def PngStream.new : PngStream := ⟨0⟩

/-- `Stream::read_bytes_sequential`: returns the next `range` bytes and
advances the counter, or errors without touching the counter.  The mutated
stream is returned alongside the `Result`. -/
def PngStream.read_bytes_sequential (s : PngStream) (byte_list : List Nat) (range : Nat) :
    Except DecodeError (List Nat) × PngStream :=
  let start := s.sequential_counter
  let stop := s.sequential_counter + range
  if byte_list.length ≥ stop then
    (.ok ((byte_list.drop start).take range), ⟨stop⟩)
  else
    (.error .outOfBounds, s)

/-- `enum ColorType` from `chunks.rs`. -/
inductive ColorType where
  | Grayscale
  | RGB
  | Indexed
  | GrayscaleAlpha
  | RGBA
deriving Repr, DecidableEq

/-- `enum InterlaceMethod` from `chunks.rs`. -/
inductive InterlaceMethod where
  | None
  | Adam7
deriving Repr, DecidableEq

/-- `struct IDHRChunk` from `chunks.rs`. -/
structure IDHRChunk where
  length : Nat
  width : Nat
  height : Nat
  bit_depth : Nat
  color_type : ColorType
  compression_method : Nat
  filter_method : Nat
  interlace_method : InterlaceMethod
  CRC : List Nat
deriving Repr, DecidableEq

/-- `struct PaletteEntry` from `chunks.rs`. -/
structure PaletteEntry where
  red : Nat
  green : Nat
  blue : Nat
deriving Repr, DecidableEq

/-- `struct PLTEChunk` from `chunks.rs`. -/
structure PLTEChunk where
  length : Nat
  entries : List PaletteEntry
  CRC : List Nat
deriving Repr, DecidableEq

/-- `struct IDATChunk` from `chunks.rs`. -/
structure IDATChunk where
  length : Nat
  data : List Nat
  CRC : List Nat
deriving Repr, DecidableEq

/-- `struct IENDChunk` from `chunks.rs`. -/
structure IENDChunk where
  length : Nat
  CRC : List Nat
deriving Repr, DecidableEq

/-- `enum Color` from `chunks.rs` (the `bKGD` payload). -/
inductive Color where
  | Gray (gray : Nat)
  | RGB (red green blue : Nat)
  | PaletteIndex (palette_index : Nat)
deriving Repr, DecidableEq

/-- `struct bKGDChunk` from `chunks.rs`. -/
structure bKGDChunk where
  length : Nat
  color : Color
  CRC : List Nat
deriving Repr, DecidableEq

/-- `struct gAMAChunk` from `chunks.rs`. -/
structure gAMAChunk where
  length : Nat
  gamma : Nat
  CRC : List Nat
deriving Repr, DecidableEq

/-- `struct cHRMChunk` from `chunks.rs`. -/
structure cHRMChunk where
  length : Nat
  white_point_x : Nat
  white_point_y : Nat
  red_x : Nat
  red_y : Nat
  green_x : Nat
  green_y : Nat
  blue_x : Nat
  blue_y : Nat
  CRC : List Nat
deriving Repr, DecidableEq

/-- `struct dSIGChunk` from `chunks.rs`. -/
structure dSIGChunk where
  length : Nat
  data : List Nat
  CRC : List Nat
deriving Repr, DecidableEq

/-- `struct eXIfChunk` from `chunks.rs`. -/
structure eXIfChunk where
  length : Nat
  data : List Nat
  CRC : List Nat
deriving Repr, DecidableEq

/-- `struct hISTChunk` from `chunks.rs`. -/
structure hISTChunk where
  length : Nat
  data : List Nat
  CRC : List Nat
deriving Repr, DecidableEq

/-- `struct iCCPChunk` from `chunks.rs` (`profile_name` as UTF-8 bytes). -/
structure iCCPChunk where
  length : Nat
  profile_name : List Nat
  compression_method : Nat
  compression_profile : List Nat
  CRC : List Nat
deriving Repr, DecidableEq

/-- `struct iTXtChunk` from `chunks.rs` (strings as UTF-8 bytes). -/
structure iTXtChunk where
  length : Nat
  keyword : List Nat
  compression_flag : Nat
  compression_method : Nat
  language_tag : List Nat
  translated_keyword : List Nat
  text : List Nat
  CRC : List Nat
deriving Repr, DecidableEq

/-- `struct pHYsChunk` from `chunks.rs`. -/
structure pHYsChunk where
  length : Nat
  pixels_per_unit_x_axis : Nat
  pixels_per_unit_y_axis : Nat
  unit_specifier : Nat
  CRC : List Nat
deriving Repr, DecidableEq

/-- `struct sBITChunk` from `chunks.rs`. -/
structure sBITChunk where
  length : Nat
  data : List Nat
  CRC : List Nat
deriving Repr, DecidableEq

/-- `struct sPLTEntry` from `chunks.rs`. -/
structure sPLTEntry where
  red : Nat
  green : Nat
  blue : Nat
  alpha : Nat
  frequency : Nat
deriving Repr, DecidableEq

/-- `struct sPLTChunk` from `chunks.rs` (`palette_name` as UTF-8 bytes). -/
structure sPLTChunk where
  length : Nat
  palette_name : List Nat
  sample_depth : Nat
  entries : List sPLTEntry
  CRC : List Nat
deriving Repr, DecidableEq

/-- `enum RenderingIntent` from `chunks.rs`. -/
inductive RenderingIntent where
  | Perceptual
  | RelativeColorimetric
  | Saturation
  | AbsoluteColorimetric
deriving Repr, DecidableEq

/-- `struct sRGBChunk` from `chunks.rs`. -/
structure sRGBChunk where
  length : Nat
  rendering_intent : RenderingIntent
  CRC : List Nat
deriving Repr, DecidableEq

/-- `struct sTERChunk` from `chunks.rs`. -/
structure sTERChunk where
  length : Nat
  stereo_mode : Nat
  CRC : List Nat
deriving Repr, DecidableEq

/-- `struct tEXtChunk` from `chunks.rs` (strings as UTF-8 bytes). -/
structure tEXtChunk where
  length : Nat
  keyword : List Nat
  text : List Nat
  CRC : List Nat
deriving Repr, DecidableEq

/-- `struct tIMEChunk` from `chunks.rs`. -/
structure tIMEChunk where
  length : Nat
  year : Nat
  month : Nat
  day : Nat
  hour : Nat
  minute : Nat
  second : Nat
  CRC : List Nat
deriving Repr, DecidableEq

/-- `struct tRNSChunk` from `chunks.rs`. -/
structure tRNSChunk where
  length : Nat
  transparency_data : List Nat
  CRC : List Nat
deriving Repr, DecidableEq

/-- `struct zTXtChunk` from `chunks.rs` (`keyword` as UTF-8 bytes). -/
structure zTXtChunk where
  length : Nat
  keyword : List Nat
  compression_method : Nat
  compressed_text : List Nat
  CRC : List Nat
deriving Repr, DecidableEq

/-- `enum Chunk` from `chunks.rs`: the closed set of record variants. -/
inductive Chunk where
  | IDHR (c : IDHRChunk)
  | PLTE (c : PLTEChunk)
  | IDAT (c : IDATChunk)
  | IEND (c : IENDChunk)
  | tIME (c : tIMEChunk)
  | bKGD (c : bKGDChunk)
  | gAMA (c : gAMAChunk)
  | cHRM (c : cHRMChunk)
  | dSIG (c : dSIGChunk)
  | eXIf (c : eXIfChunk)
  | hIST (c : hISTChunk)
  | iCCP (c : iCCPChunk)
  | iTXt (c : iTXtChunk)
  | pHYs (c : pHYsChunk)
  | sBIT (c : sBITChunk)
  | sPLT (c : sPLTChunk)
  | sRGB (c : sRGBChunk)
  | sTER (c : sTERChunk)
  | tEXt (c : tEXtChunk)
  | tRNS (c : tRNSChunk)
  | zTXt (c : zTXtChunk)
deriving Repr, DecidableEq

/-- The PNG magic signature `[137, 80, 78, 71, 13, 10, 26, 10]`. -/
def pngSignature : List Nat := [137, 80, 78, 71, 13, 10, 26, 10]

/-- `struct Png` from `png.rs`.  `FileLoader` is flattened to its `data`
field (file names and file I/O are out of the decoding core). -/
structure Png where
  data : List Nat
  data_stream : PngStream
  chunk_list : List Chunk
  signature_verified : Bool
  png_signature : List Nat
deriving Repr, DecidableEq

/-- The state-with-errors monad in which every `&mut Png` method runs.  On
an error the partially mutated state is kept, as in Rust. -/
def DecodeM (α : Type) : Type := Png → Except DecodeError α × Png

namespace DecodeM

def pure' {α : Type} (a : α) : DecodeM α := fun p => (.ok a, p)

def bind' {α β : Type} (x : DecodeM α) (f : α → DecodeM β) : DecodeM β := fun p =>
  match x p with
  | (.ok a, p') => f a p'
  | (.error e, p') => (.error e, p')

instance : Monad DecodeM where
  pure := pure'
  bind := bind'

/-- An `Err(...)` return. -/
def throw {α : Type} (e : DecodeError) : DecodeM α := fun p => (.error e, p)

end DecodeM

/-- Debug-build `u32` subtraction: panics (here: errors) on underflow. -/
def checkedSub (a b : Nat) : DecodeM Nat :=
  if b ≤ a then pure (a - b) else DecodeM.throw .arithmeticOverflow

namespace Png

/-- `Png::read_bytes`: delegate to the stream over the loaded data. -/
def read_bytes (range : Nat) : DecodeM (List Nat) := fun p =>
  let (r, s') := p.data_stream.read_bytes_sequential p.data range
  (r, { p with data_stream := s' })

/-- `Png::add_chunk`: push onto the chunk list (always `Ok(())`). -/
def add_chunk (chunk : Chunk) : DecodeM Unit := fun p =>
  (.ok (), { p with chunk_list := p.chunk_list ++ [chunk] })

/-- `Png::big_endian_u32`: length check then big-endian shift-or. -/
def big_endian_u32 : DecodeM Nat := do
  let bytes ← read_bytes 4
  if bytes.length ≠ 4 then DecodeM.throw .notEnoughBytes
  else pure ((bytes.getD 0 0 <<< 24) ||| (bytes.getD 1 0 <<< 16) |||
             (bytes.getD 2 0 <<< 8) ||| bytes.getD 3 0)

/-- `Png::big_endian_u16`: length check then big-endian shift-or. -/
def big_endian_u16 : DecodeM Nat := do
  let bytes ← read_bytes 2
  if bytes.length ≠ 2 then DecodeM.throw .notEnoughBytes
  else pure ((bytes.getD 0 0 <<< 8) ||| bytes.getD 1 0)

/-- `Png::get_u32`: 4 raw bytes (used for every CRC field). -/
def get_u32 : DecodeM (List Nat) := do
  let bytes ← read_bytes 4
  if bytes.isEmpty then DecodeM.throw .notEnoughBytes else pure bytes

/-- `Png::get_u16`: 2 raw bytes. -/
def get_u16 : DecodeM (List Nat) := do
  let bytes ← read_bytes 2
  if bytes.isEmpty then DecodeM.throw .notEnoughBytes else pure bytes

/-- `Png::get_u8`. -/
def get_u8 : DecodeM Nat := do
  let bytes ← read_bytes 1
  if bytes.isEmpty then DecodeM.throw .notEnoughBytes else pure bytes.headI

end Png

/-- Exact UTF-8 validity (`String::from_utf8` succeeds iff this is `true`). -/
def validUtf8 : List Nat → Bool
  | [] => true
  | b :: bs =>
    if b < 0x80 then validUtf8 bs
    else if b < 0xC2 then false
    else if b < 0xE0 then
      match bs with
      | c1 :: bs' => (0x80 ≤ c1 && c1 < 0xC0) && validUtf8 bs'
      | [] => false
    else if b < 0xF0 then
      match bs with
      | c1 :: c2 :: bs' =>
        (if b = 0xE0 then 0xA0 ≤ c1 && c1 < 0xC0
         else if b = 0xED then 0x80 ≤ c1 && c1 < 0xA0
         else 0x80 ≤ c1 && c1 < 0xC0)
          && (0x80 ≤ c2 && c2 < 0xC0) && validUtf8 bs'
      | _ => false
    else if b < 0xF5 then
      match bs with
      | c1 :: c2 :: c3 :: bs' =>
        (if b = 0xF0 then 0x90 ≤ c1 && c1 < 0xC0
         else if b = 0xF4 then 0x80 ≤ c1 && c1 < 0x90
         else 0x80 ≤ c1 && c1 < 0xC0)
          && (0x80 ≤ c2 && c2 < 0xC0) && (0x80 ≤ c3 && c3 < 0xC0) && validUtf8 bs'
      | _ => false
    else false

namespace DecodeM

theorem bind_apply {α β : Type} (x : DecodeM α) (f : α → DecodeM β) (p : Png) :
    (x >>= f) p =
      match x p with
      | (.ok a, p') => f a p'
      | (.error e, p') => (.error e, p') := rfl

theorem pure_apply {α : Type} (a : α) (p : Png) : (pure a : DecodeM α) p = (.ok a, p) := rfl

theorem throw_apply {α : Type} (e : DecodeError) (p : Png) :
    (throw e : DecodeM α) p = (.error e, p) := rfl

end DecodeM

namespace Png

/-- Closed form of `read_bytes`. -/
theorem read_bytes_eq (p : Png) (n : Nat) :
    read_bytes n p =
      if p.data_stream.sequential_counter + n ≤ p.data.length then
        (.ok ((p.data.drop p.data_stream.sequential_counter).take n),
          { p with data_stream := ⟨p.data_stream.sequential_counter + n⟩ })
      else (.error .outOfBounds, p) := by
  simp only [read_bytes, PngStream.read_bytes_sequential, ge_iff_le]
  split <;> rfl

/-- Closed form of `get_u8`. -/
theorem get_u8_eq (p : Png) :
    get_u8 p =
      if p.data_stream.sequential_counter + 1 ≤ p.data.length then
        (.ok ((p.data.drop p.data_stream.sequential_counter).headI),
          { p with data_stream := ⟨p.data_stream.sequential_counter + 1⟩ })
      else (.error .outOfBounds, p) := by
  by_cases hle : p.data_stream.sequential_counter + 1 ≤ p.data.length
  · rcases hd : p.data.drop p.data_stream.sequential_counter with _ | ⟨a, t⟩
    · exfalso
      have := congrArg List.length hd
      simp at this
      omega
    · simp only [get_u8, DecodeM.bind_apply, read_bytes_eq, if_pos hle, hd]
      simp [DecodeM.pure_apply, DecodeM.throw_apply]
  · simp only [get_u8, DecodeM.bind_apply, read_bytes_eq, if_neg hle]

theorem get_u8_ok (p : Png) (b : Nat) (p' : Png) (h : get_u8 p = (.ok b, p')) :
    p'.data = p.data ∧
      p'.data_stream.sequential_counter = p.data_stream.sequential_counter + 1 ∧
      p.data_stream.sequential_counter + 1 ≤ p.data.length ∧
      p'.chunk_list = p.chunk_list := by
  rw [get_u8_eq] at h
  split at h
  · next hle =>
    obtain ⟨-, rfl⟩ := Prod.mk.injEq .. ▸ h
    exact ⟨rfl, rfl, hle, rfl⟩
  · cases h

/-- `Png::get_string`: `read_bytes` then `String::from_utf8`. -/
def get_string (length : Nat) : DecodeM (List Nat) := do
  let bytes ← read_bytes length
  if validUtf8 bytes then pure bytes else DecodeM.throw .invalidUtf8

/-- The byte-collecting loop of `Png::read_null_terminated_string`: read one
byte at a time, pushing until a zero byte (which is consumed, not pushed). -/
def readNullTerminatedAux (p : Png) (acc : List Nat) :
    Except DecodeError (List Nat) × Png :=
  match h : get_u8 p with
  | (.error e, p') => (.error e, p')
  | (.ok b, p') =>
    if b = 0 then (.ok acc, p')
    else readNullTerminatedAux p' (acc ++ [b])
termination_by p.data.length - p.data_stream.sequential_counter
decreasing_by
  obtain ⟨hdata, hctr, hle, -⟩ := Png.get_u8_ok p b p' h
  rw [hdata, hctr]
  omega

/-- `Png::read_null_terminated_string`: the collected bytes, their count, and
the `from_utf8` validity check. -/
def read_null_terminated_string : DecodeM (List Nat × Nat) := fun p =>
  match readNullTerminatedAux p [] with
  | (.error e, p') => (.error e, p')
  | (.ok bytes, p') =>
    if validUtf8 bytes then (.ok (bytes, bytes.length), p') else (.error .invalidUtf8, p')

end Png

/-- UTF-8 byte length of a Rust `String` built by pushing each raw byte as a
`char` (as `zTXtChunk::new` does): a byte below 0x80 contributes 1 byte, any
other byte becomes a 2-byte scalar. -/
def utf8PushedLen : List Nat → Nat
  | [] => 0
  | b :: bs => (if b < 0x80 then 1 else 2) + utf8PushedLen bs

/-- The `match png_file.get_u8()? { 0 => Grayscale, ... }` of
`IDHRChunk::new`, as a literal-test chain on the already-read byte. -/
def parse_color_type (ctb : Nat) : DecodeM ColorType :=
  if ctb = 0 then pure ColorType.Grayscale
  else if ctb = 2 then pure ColorType.RGB
  else if ctb = 3 then pure ColorType.Indexed
  else if ctb = 4 then pure ColorType.GrayscaleAlpha
  else if ctb = 6 then pure ColorType.RGBA
  else DecodeM.throw .unknownColorType

/-- The interlace-method `match` of `IDHRChunk::new`. -/
def parse_interlace_method (imb : Nat) : DecodeM InterlaceMethod :=
  if imb = 0 then pure InterlaceMethod.None
  else if imb = 1 then pure InterlaceMethod.Adam7
  else DecodeM.throw .unknownInterlaceMethod

/-- `IDHRChunk::new` from `chunks.rs`. -/
def IDHRChunk.new (length : Nat) : DecodeM IDHRChunk := do
  let width ← Png.big_endian_u32
  let height ← Png.big_endian_u32
  let bit_depth ← Png.get_u8
  let ctb ← Png.get_u8
  let color_type ← parse_color_type ctb
  let compression_method ← Png.get_u8
  let filter_method ← Png.get_u8
  let imb ← Png.get_u8
  let interlace_method ← parse_interlace_method imb
  let CRC ← Png.get_u32
  pure { length, width, height, bit_depth, color_type, compression_method,
         filter_method, interlace_method, CRC }

/-- The `for _ in 0..(length / 3)` entry loop of `PLTEChunk::new`. -/
def readPaletteEntries : Nat → DecodeM (List PaletteEntry)
  | 0 => pure []
  | n + 1 => do
    let red ← Png.get_u8
    let green ← Png.get_u8
    let blue ← Png.get_u8
    let rest ← readPaletteEntries n
    pure ({ red, green, blue } :: rest)

/-- `PLTEChunk::new` from `chunks.rs`: checks `length % 3 == 0` first. -/
def PLTEChunk.new (length : Nat) : DecodeM PLTEChunk := do
  if length % 3 ≠ 0 then DecodeM.throw .invalidPLTELength
  else
    let entries ← readPaletteEntries (length / 3)
    let CRC ← Png.get_u32
    pure { length, entries, CRC }

/-- A `for _ in 0..n { v.push(get_u8()?) }` loop. -/
def readU8List : Nat → DecodeM (List Nat)
  | 0 => pure []
  | n + 1 => do
    let b ← Png.get_u8
    let rest ← readU8List n
    pure (b :: rest)

/-- A `for _ in 0..n { v.push(big_endian_u16()?) }` loop. -/
def readU16List : Nat → DecodeM (List Nat)
  | 0 => pure []
  | n + 1 => do
    let v ← Png.big_endian_u16
    let rest ← readU16List n
    pure (v :: rest)

/-- `IDATChunk::new` from `chunks.rs`: `length` raw bytes then the CRC. -/
def IDATChunk.new (length : Nat) : DecodeM IDATChunk := do
  let data ← readU8List length
  let CRC ← Png.get_u32
  pure { length, data, CRC }

/-- `IENDChunk::new` from `chunks.rs`: only the CRC is read. -/
def IENDChunk.new (length : Nat) : DecodeM IENDChunk := do
  let CRC ← Png.get_u32
  pure { length, CRC }

/-- The `iter_mut().find_map(...)` lookup in `bKGDChunk::new`: first `IDHR`
record of the chunk list, if any. -/
def findIDHR : List Chunk → Option IDHRChunk
  | [] => none
  | .IDHR c :: _ => some c
  | _ :: rest => findIDHR rest

/-- The `match color_type` payload read of `bKGDChunk::new`. -/
def read_background_color (color_type : ColorType) : DecodeM Color :=
  match color_type with
  | .Grayscale | .GrayscaleAlpha => do
    let gray ← Png.big_endian_u16
    pure (Color.Gray gray)
  | .RGB | .RGBA => do
    let red ← Png.big_endian_u16
    let green ← Png.big_endian_u16
    let blue ← Png.big_endian_u16
    pure (Color.RGB red green blue)
  | .Indexed => do
    let palette_index ← Png.get_u8
    pure (Color.PaletteIndex palette_index)

/-- `bKGDChunk::new` from `chunks.rs`: looks up the header's color type in
the already-decoded chunk list, then reads a mode-dependent payload. -/
def bKGDChunk.new (length : Nat) : DecodeM bKGDChunk := fun p =>
  match findIDHR p.chunk_list with
  | none => (.error .IDHRNotFound, p)
  | some IDHR_chunk =>
    (do
      let color ← read_background_color IDHR_chunk.color_type
      let CRC ← Png.get_u32
      pure { length, color, CRC : bKGDChunk }) p

/-- `gAMAChunk::new` from `chunks.rs`. -/
def gAMAChunk.new (length : Nat) : DecodeM gAMAChunk := do
  let gamma ← Png.big_endian_u32
  let CRC ← Png.get_u32
  pure { length, gamma, CRC }

/-- `cHRMChunk::new` from `chunks.rs`. -/
def cHRMChunk.new (length : Nat) : DecodeM cHRMChunk := do
  let white_point_x ← Png.big_endian_u32
  let white_point_y ← Png.big_endian_u32
  let red_x ← Png.big_endian_u32
  let red_y ← Png.big_endian_u32
  let green_x ← Png.big_endian_u32
  let green_y ← Png.big_endian_u32
  let blue_x ← Png.big_endian_u32
  let blue_y ← Png.big_endian_u32
  let CRC ← Png.get_u32
  pure { length, white_point_x, white_point_y, red_x, red_y, green_x, green_y,
         blue_x, blue_y, CRC }

/-- `dSIGChunk::new` from `chunks.rs`. -/
def dSIGChunk.new (length : Nat) : DecodeM dSIGChunk := do
  let data ← readU8List length
  let CRC ← Png.get_u32
  pure { length, data, CRC }

/-- `eXIfChunk::new` from `chunks.rs`. -/
def eXIfChunk.new (length : Nat) : DecodeM eXIfChunk := do
  let data ← readU8List length
  let CRC ← Png.get_u32
  pure { length, data, CRC }

/-- `hISTChunk::new` from `chunks.rs`: `length / 2` big-endian `u16`s (note:
no divisibility check on `length`). -/
def hISTChunk.new (length : Nat) : DecodeM hISTChunk := do
  let data ← readU16List (length / 2)
  let CRC ← Png.get_u32
  pure { length, data, CRC }

/-- `iCCPChunk::new` from `chunks.rs`: the remainder count is the `u32`
expression `length - profile_name_length - 1`. -/
def iCCPChunk.new (length : Nat) : DecodeM iCCPChunk := do
  let (profile_name, profile_name_length) ← Png.read_null_terminated_string
  let compression_method ← Png.get_u8
  let d1 ← checkedSub length profile_name_length
  let remaining ← checkedSub d1 1
  let compression_profile ← Png.read_bytes remaining
  let CRC ← Png.get_u32
  pure { length, profile_name, compression_method, compression_profile, CRC }

/-- `iTXtChunk::new` from `chunks.rs`: the text byte count is the `u32`
expression `length - keyword_length - language_tag_length -
translated_keyword_length - 2`. -/
def iTXtChunk.new (length : Nat) : DecodeM iTXtChunk := do
  let (keyword, keyword_length) ← Png.read_null_terminated_string
  let compression_flag ← Png.get_u8
  let compression_method ← Png.get_u8
  let (language_tag, language_tag_length) ← Png.read_null_terminated_string
  let (translated_keyword, translated_keyword_length) ← Png.read_null_terminated_string
  let d1 ← checkedSub length keyword_length
  let d2 ← checkedSub d1 language_tag_length
  let d3 ← checkedSub d2 translated_keyword_length
  let text_count ← checkedSub d3 2
  let text_bytes ← readU8List text_count
  if validUtf8 text_bytes then
    let CRC ← Png.get_u32
    pure { length, keyword, compression_flag, compression_method, language_tag,
           translated_keyword, text := text_bytes, CRC }
  else DecodeM.throw .invalidUtf8

/-- `pHYsChunk::new` from `chunks.rs`. -/
def pHYsChunk.new (length : Nat) : DecodeM pHYsChunk := do
  let pixels_per_unit_x_axis ← Png.big_endian_u32
  let pixels_per_unit_y_axis ← Png.big_endian_u32
  let unit_specifier ← Png.get_u8
  let CRC ← Png.get_u32
  pure { length, pixels_per_unit_x_axis, pixels_per_unit_y_axis, unit_specifier, CRC }

/-- `sBITChunk::new` from `chunks.rs`. -/
def sBITChunk.new (length : Nat) : DecodeM sBITChunk := do
  let data ← readU8List length
  let CRC ← Png.get_u32
  pure { length, data, CRC }

/-- The entry loop of `sPLTChunk::new`: each channel is one byte exactly when
`sample_depth == 8`, two bytes otherwise; the frequency is a 4-byte read. -/
def spltChannel (sample_depth : Nat) : DecodeM Nat :=
  if sample_depth = 8 then Png.get_u8 else Png.big_endian_u16

def readSPLTEntries (sample_depth : Nat) : Nat → DecodeM (List sPLTEntry)
  | 0 => pure []
  | n + 1 => do
    let red ← spltChannel sample_depth
    let green ← spltChannel sample_depth
    let blue ← spltChannel sample_depth
    let alpha ← spltChannel sample_depth
    let frequency ← Png.big_endian_u32
    let rest ← readSPLTEntries sample_depth n
    pure ({ red, green, blue, alpha, frequency } :: rest)

/-- `sPLTChunk::new` from `chunks.rs`: entry count is the flooring division
`(length - name_length - 2) / entry_length` with `entry_length` 6 or 10. -/
def sPLTChunk.new (length : Nat) : DecodeM sPLTChunk := do
  let (palette_name, name_length) ← Png.read_null_terminated_string
  let sample_depth ← Png.get_u8
  let entry_length := if sample_depth = 8 then 6 else 10
  let d1 ← checkedSub length name_length
  let d2 ← checkedSub d1 2
  let num_entries := d2 / entry_length
  let entries ← readSPLTEntries sample_depth num_entries
  let CRC ← Png.get_u32
  pure { length, palette_name, sample_depth, entries, CRC }

/-- The rendering-intent `match` of `sRGBChunk::new`. -/
def parse_rendering_intent (rib : Nat) : DecodeM RenderingIntent :=
  if rib = 0 then pure RenderingIntent.Perceptual
  else if rib = 1 then pure RenderingIntent.RelativeColorimetric
  else if rib = 2 then pure RenderingIntent.Saturation
  else if rib = 3 then pure RenderingIntent.AbsoluteColorimetric
  else DecodeM.throw .invalidRenderingIntent

/-- `sRGBChunk::new` from `chunks.rs`. -/
def sRGBChunk.new (length : Nat) : DecodeM sRGBChunk := do
  let rib ← Png.get_u8
  let rendering_intent ← parse_rendering_intent rib
  let CRC ← Png.get_u32
  pure { length, rendering_intent, CRC }

/-- `sTERChunk::new` from `chunks.rs` (no check on the mode byte). -/
def sTERChunk.new (length : Nat) : DecodeM sTERChunk := do
  let stereo_mode ← Png.get_u8
  let CRC ← Png.get_u32
  pure { length, stereo_mode, CRC }

/-- `tEXtChunk::new` from `chunks.rs`: the text byte count is the `u32`
expression `length - keyword_length - 1`. -/
def tEXtChunk.new (length : Nat) : DecodeM tEXtChunk := do
  let (keyword, keyword_length) ← Png.read_null_terminated_string
  let d1 ← checkedSub length keyword_length
  let text_length ← checkedSub d1 1
  let text ← Png.get_string text_length
  let CRC ← Png.get_u32
  pure { length, keyword, text, CRC }

/-- `tIMEChunk::new` from `chunks.rs`. -/
def tIMEChunk.new (length : Nat) : DecodeM tIMEChunk := do
  let year ← Png.big_endian_u16
  let month ← Png.get_u8
  let day ← Png.get_u8
  let hour ← Png.get_u8
  let minute ← Png.get_u8
  let second ← Png.get_u8
  let CRC ← Png.get_u32
  pure { length, year, month, day, hour, minute, second, CRC }

/-- `tRNSChunk::new` from `chunks.rs`. -/
def tRNSChunk.new (length : Nat) : DecodeM tRNSChunk := do
  let transparency_data ← readU8List length
  let CRC ← Png.get_u32
  pure { length, transparency_data, CRC }

/-- `zTXtChunk::new` from `chunks.rs`: the keyword is read by an inline loop
pushing each byte as a `char`, so its `len()` is `utf8PushedLen`; the
compressed-text count is the `u32` expression `length - keyword.len() - 2`. -/
def zTXtChunk.new (length : Nat) : DecodeM zTXtChunk := do
  let keyword ← fun p => Png.readNullTerminatedAux p []
  let compression_method ← Png.get_u8
  let d1 ← checkedSub length (utf8PushedLen keyword)
  let count ← checkedSub d1 2
  let compressed_text ← readU8List count
  let CRC ← Png.get_u32
  pure { length, keyword, compression_method, compressed_text, CRC }

/-- The symbolic chunk-type identifiers of the registry in
`PngDecoder::new` (`main.rs`): the map's 21 string values. -/
inductive ChunkType where
  | IDHR | IDAT | PLTE | bKGD | cHRM | dSIG | eXIf | gAMA | hIST | iCCP
  | iTXt | pHYs | sBIT | sPLT | sRGB | sTER | tEXt | tIME | tRNS | zTXt | IEND
deriving Repr, DecidableEq

/-- The tag registry built by `PngDecoder::new`: the 21 `insert` calls, as a
lookup from the 4 tag bytes; any other key yields `none`. -/
def chunk_type_map (key : List Nat) : Option ChunkType :=
  if key = [73, 72, 68, 82] then some .IDHR
  else if key = [73, 68, 65, 84] then some .IDAT
  else if key = [80, 76, 84, 69] then some .PLTE
  else if key = [98, 75, 71, 68] then some .bKGD
  else if key = [99, 72, 82, 77] then some .cHRM
  else if key = [100, 83, 73, 71] then some .dSIG
  else if key = [101, 88, 73, 102] then some .eXIf
  else if key = [103, 65, 77, 65] then some .gAMA
  else if key = [104, 73, 83, 84] then some .hIST
  else if key = [105, 67, 67, 80] then some .iCCP
  else if key = [105, 84, 88, 116] then some .iTXt
  else if key = [112, 72, 89, 115] then some .pHYs
  else if key = [115, 66, 73, 84] then some .sBIT
  else if key = [115, 80, 76, 84] then some .sPLT
  else if key = [115, 82, 71, 66] then some .sRGB
  else if key = [115, 84, 69, 82] then some .sTER
  else if key = [116, 69, 88, 116] then some .tEXt
  else if key = [116, 73, 77, 69] then some .tIME
  else if key = [116, 82, 78, 83] then some .tRNS
  else if key = [122, 84, 88, 116] then some .zTXt
  else if key = [73, 69, 78, 68] then some .IEND
  else none

/-- The dispatch `match` of `PngDecoder::get_all_chunks`: decode one chunk
of the given type and append the record.  Returns `true` exactly when the
chunk was the terminal `IEND` (the loop's `break`). -/
def dispatchChunk (ct : ChunkType) (length : Nat) : DecodeM Bool :=
  match ct with
  | .IDHR => do
      let c ← IDHRChunk.new length
      Png.add_chunk (.IDHR c)
      pure false
    | .PLTE => do
      let c ← PLTEChunk.new length
      Png.add_chunk (.PLTE c)
      pure false
    | .IDAT => do
      let c ← IDATChunk.new length
      Png.add_chunk (.IDAT c)
      pure false
    | .tIME => do
      let c ← tIMEChunk.new length
      Png.add_chunk (.tIME c)
      pure false
    | .gAMA => do
      let c ← gAMAChunk.new length
      Png.add_chunk (.gAMA c)
      pure false
    | .cHRM => do
      let c ← cHRMChunk.new length
      Png.add_chunk (.cHRM c)
      pure false
    | .bKGD => do
      let c ← bKGDChunk.new length
      Png.add_chunk (.bKGD c)
      pure false
    | .tEXt => do
      let c ← tEXtChunk.new length
      Png.add_chunk (.tEXt c)
      pure false
    | .dSIG => do
      let c ← dSIGChunk.new length
      Png.add_chunk (.dSIG c)
      pure false
    | .eXIf => do
      let c ← eXIfChunk.new length
      Png.add_chunk (.eXIf c)
      pure false
    | .hIST => do
      let c ← hISTChunk.new length
      Png.add_chunk (.hIST c)
      pure false
    | .iCCP => do
      let c ← iCCPChunk.new length
      Png.add_chunk (.iCCP c)
      pure false
    | .iTXt => do
      let c ← iTXtChunk.new length
      Png.add_chunk (.iTXt c)
      pure false
    | .pHYs => do
      let c ← pHYsChunk.new length
      Png.add_chunk (.pHYs c)
      pure false
    | .sBIT => do
      let c ← sBITChunk.new length
      Png.add_chunk (.sBIT c)
      pure false
    | .sPLT => do
      let c ← sPLTChunk.new length
      Png.add_chunk (.sPLT c)
      pure false
    | .sRGB => do
      let c ← sRGBChunk.new length
      Png.add_chunk (.sRGB c)
      pure false
    | .sTER => do
      let c ← sTERChunk.new length
      Png.add_chunk (.sTER c)
      pure false
    | .tRNS => do
      let c ← tRNSChunk.new length
      Png.add_chunk (.tRNS c)
      pure false
    | .zTXt => do
      let c ← zTXtChunk.new length
      Png.add_chunk (.zTXt c)
      pure false
    | .IEND => do
      let c ← IENDChunk.new length
      Png.add_chunk (.IEND c)
      pure true

/-- One iteration of the `loop` in `PngDecoder::get_all_chunks`: read a
4-byte length and 4-byte tag, look the tag up, dispatch to the matching
decoder. -/
def decodeStep : DecodeM Bool := do
  let length ← Png.big_endian_u32
  let key_bytes ← Png.read_bytes 4
  match chunk_type_map key_bytes with
  | none => DecodeM.throw .unknownChunkType
  | some ct => dispatchChunk ct length

/-- The `loop` of `PngDecoder::get_all_chunks`, with explicit fuel (the Rust
loop needs none: every iteration either fails or consumes at least 8 bytes).
`true` means the loop finished by decoding the terminal `IEND` chunk;
`false` means the fuel ran out with decoding still in progress. -/
def get_all_chunks : Nat → DecodeM Bool
  | 0 => pure false
  | fuel + 1 => do
    let is_end ← decodeStep
    if is_end then pure true else get_all_chunks fuel

/-- `Png::new` from `png.rs`, over an already-loaded byte buffer: read the
first 8 bytes (a failing read is an `expect` panic, modelled as `none`), and
compare them against the magic signature to set `signature_verified`. -/
def Png.new (data : List Nat) : Option Png :=
  let stream := PngStream.new
  match stream.read_bytes_sequential data 8 with
  | (.ok signature, stream') =>
    some { data := data
           data_stream := stream'
           chunk_list := []
           signature_verified := if signature = pngSignature then true else false
           png_signature := pngSignature }
  | (.error _, _) => none

/-! ## Basic lemmas about the monad and the primitive readers -/

namespace DecodeM

theorem bind_ok {α β : Type} {x : DecodeM α} {f : α → DecodeM β} {p p'' : Png} {b : β}
    (h : (x >>= f) p = (.ok b, p'')) :
    ∃ a p₁, x p = (.ok a, p₁) ∧ f a p₁ = (.ok b, p'') := by
  rw [bind_apply] at h
  rcases hx : x p with ⟨r, p₁⟩
  rw [hx] at h
  cases r with
  | ok a => exact ⟨a, p₁, rfl, h⟩
  | error e => cases h

theorem pure_ok {α : Type} {a b : α} {p p' : Png}
    (h : (pure a : DecodeM α) p = (.ok b, p')) : b = a ∧ p' = p := by
  rw [pure_apply] at h
  simp only [Prod.mk.injEq, Except.ok.injEq] at h
  exact ⟨h.1.symm, h.2.symm⟩

theorem throw_ok {α : Type} {e : DecodeError} {b : α} {p p' : Png}
    (h : (throw e : DecodeM α) p = (.ok b, p')) : False := by
  rw [throw_apply] at h
  cases h

end DecodeM

/-- Shorthand: the state with only the cursor advanced by `k`. -/
def Png.adv (p : Png) (k : Nat) : Png :=
  { p with data_stream := ⟨p.data_stream.sequential_counter + k⟩ }

theorem Png.adv_adv (p : Png) (k l : Nat) : (p.adv k).adv l = p.adv (k + l) := by
  simp [Png.adv, Nat.add_assoc]

theorem Png.adv_zero (p : Png) : p.adv 0 = p := by
  simp [Png.adv]

theorem Png.adv_data (p : Png) (k : Nat) : (p.adv k).data = p.data := rfl

theorem Png.adv_chunk_list (p : Png) (k : Nat) : (p.adv k).chunk_list = p.chunk_list := rfl

theorem Png.adv_counter (p : Png) (k : Nat) :
    (p.adv k).data_stream.sequential_counter = p.data_stream.sequential_counter + k := rfl

namespace Png

theorem read_bytes_ok {n : Nat} {p p' : Png} {bs : List Nat}
    (h : read_bytes n p = (.ok bs, p')) :
    bs = (p.data.drop p.data_stream.sequential_counter).take n ∧ p' = p.adv n ∧
      p.data_stream.sequential_counter + n ≤ p.data.length := by
  rw [read_bytes_eq] at h
  split at h
  · next hle =>
    obtain ⟨h1, h2⟩ := Prod.mk.injEq .. ▸ h
    exact ⟨(Except.ok.injEq .. ▸ h1).symm, h2.symm, hle⟩
  · cases h

theorem get_u8_ok' {p p' : Png} {b : Nat} (h : get_u8 p = (.ok b, p')) :
    p' = p.adv 1 ∧ p.data_stream.sequential_counter + 1 ≤ p.data.length := by
  rw [get_u8_eq] at h
  split at h
  · next hle =>
    obtain ⟨-, h2⟩ := Prod.mk.injEq .. ▸ h
    exact ⟨h2.symm, hle⟩
  · cases h

theorem big_endian_u16_ok {p p' : Png} {v : Nat} (h : big_endian_u16 p = (.ok v, p')) :
    p' = p.adv 2 := by
  obtain ⟨bs, p₁, h1, h2⟩ := DecodeM.bind_ok h
  obtain ⟨hbs, rfl, hle⟩ := read_bytes_ok h1
  revert h2
  split <;> intro h2
  · exact absurd h2 (by rw [DecodeM.throw_apply]; simp)
  · exact (DecodeM.pure_ok h2).2

theorem big_endian_u32_ok {p p' : Png} {v : Nat} (h : big_endian_u32 p = (.ok v, p')) :
    p' = p.adv 4 := by
  obtain ⟨bs, p₁, h1, h2⟩ := DecodeM.bind_ok h
  obtain ⟨hbs, rfl, hle⟩ := read_bytes_ok h1
  revert h2
  split <;> intro h2
  · exact absurd h2 (by rw [DecodeM.throw_apply]; simp)
  · exact (DecodeM.pure_ok h2).2

theorem get_u32_ok {p p' : Png} {bs : List Nat} (h : get_u32 p = (.ok bs, p')) :
    p' = p.adv 4 := by
  obtain ⟨bs₁, p₁, h1, h2⟩ := DecodeM.bind_ok h
  obtain ⟨hbs, rfl, hle⟩ := read_bytes_ok h1
  revert h2
  split <;> intro h2
  · exact absurd h2 (by rw [DecodeM.throw_apply]; simp)
  · exact (DecodeM.pure_ok h2).2

theorem get_u16_ok {p p' : Png} {bs : List Nat} (h : get_u16 p = (.ok bs, p')) :
    p' = p.adv 2 := by
  obtain ⟨bs₁, p₁, h1, h2⟩ := DecodeM.bind_ok h
  obtain ⟨hbs, rfl, hle⟩ := read_bytes_ok h1
  revert h2
  split <;> intro h2
  · exact absurd h2 (by rw [DecodeM.throw_apply]; simp)
  · exact (DecodeM.pure_ok h2).2

theorem get_string_ok {n : Nat} {p p' : Png} {bs : List Nat}
    (h : get_string n p = (.ok bs, p')) : p' = p.adv n := by
  obtain ⟨bs₁, p₁, h1, h2⟩ := DecodeM.bind_ok h
  obtain ⟨hbs, rfl, hle⟩ := read_bytes_ok h1
  revert h2
  split <;> intro h2
  · exact (DecodeM.pure_ok h2).2
  · exact absurd h2 (by rw [DecodeM.throw_apply]; simp)

theorem readNullTerminatedAux_error {p p' : Png} {e : DecodeError} (acc : List Nat)
    (h : get_u8 p = (.error e, p')) :
    readNullTerminatedAux p acc = (.error e, p') := by
  rw [readNullTerminatedAux]
  split
  · next heq => rw [h] at heq; cases heq; rfl
  · next heq => rw [h] at heq; cases heq

theorem readNullTerminatedAux_zero {p p' : Png} {b : Nat} (acc : List Nat)
    (h : get_u8 p = (.ok b, p')) (hb : b = 0) :
    readNullTerminatedAux p acc = (.ok acc, p') := by
  rw [readNullTerminatedAux]
  split
  · next heq => rw [h] at heq; cases heq
  · next heq => rw [h] at heq; cases heq; simp [hb]

theorem readNullTerminatedAux_cons {p p' : Png} {b : Nat} (acc : List Nat)
    (h : get_u8 p = (.ok b, p')) (hb : b ≠ 0) :
    readNullTerminatedAux p acc = readNullTerminatedAux p' (acc ++ [b]) := by
  rw [readNullTerminatedAux]
  split
  · next heq => rw [h] at heq; cases heq
  · next heq => rw [h] at heq; cases heq; simp [hb]

theorem readNullTerminatedAux_ok {p p' : Png} {acc bytes : List Nat}
    (h : readNullTerminatedAux p acc = (.ok bytes, p')) :
    ∃ t, bytes = acc ++ t ∧ p' = p.adv (t.length + 1) := by
  induction p, acc using readNullTerminatedAux.induct generalizing bytes p' with
  | case1 p acc e q hq =>
    rw [readNullTerminatedAux_error acc hq] at h
    cases h
  | case2 p acc q hq =>
    rw [readNullTerminatedAux_zero acc hq rfl] at h
    simp only [Prod.mk.injEq, Except.ok.injEq] at h
    obtain ⟨hb, hq'⟩ := h
    obtain ⟨hadv, -⟩ := get_u8_ok' hq
    exact ⟨[], by simp [hb], by rw [← hq', hadv]; simp⟩
  | case3 p acc b q hq hb ih =>
    rw [readNullTerminatedAux_cons acc hq hb] at h
    obtain ⟨t, ht, hadv⟩ := ih h
    obtain ⟨hq', -⟩ := get_u8_ok' hq
    refine ⟨b :: t, by simpa using ht, ?_⟩
    rw [hadv, hq', Png.adv_adv]
    congr 1
    simp [List.length_cons]
    omega

theorem read_null_terminated_string_ok {p p' : Png} {bytes : List Nat} {n : Nat}
    (h : read_null_terminated_string p = (.ok (bytes, n), p')) :
    n = bytes.length ∧ p' = p.adv (bytes.length + 1) := by
  unfold read_null_terminated_string at h
  rcases haux : readNullTerminatedAux p [] with ⟨r, q⟩
  rw [haux] at h
  cases r with
  | error e => cases h
  | ok bs =>
    have h' : (if validUtf8 bs = true then
          ((Except.ok (bs, bs.length) : Except DecodeError (List Nat × Nat)), q)
        else (Except.error DecodeError.invalidUtf8, q)) = (Except.ok (bytes, n), p') := h
    by_cases hv : validUtf8 bs = true
    · rw [if_pos hv] at h'
      simp only [Prod.mk.injEq, Except.ok.injEq] at h'
      obtain ⟨⟨hb, hn⟩, hq⟩ := h'
      obtain ⟨t, ht, hadv⟩ := readNullTerminatedAux_ok haux
      simp only [List.nil_append] at ht
      subst hb hn hq ht
      exact ⟨rfl, hadv⟩
    · rw [if_neg hv] at h'
      cases h'

end Png

theorem checkedSub_ok {a b v : Nat} {p p' : Png}
    (h : checkedSub a b p = (.ok v, p')) : v = a - b ∧ b ≤ a ∧ p' = p := by
  unfold checkedSub at h
  split at h
  · next hle =>
    obtain ⟨hv, hp⟩ := DecodeM.pure_ok h
    exact ⟨hv, hle, hp⟩
  · exact absurd h (by rw [DecodeM.throw_apply]; simp)

theorem readU8List_ok {n : Nat} : ∀ {p p' : Png} {l : List Nat},
    readU8List n p = (.ok l, p') → l.length = n ∧ p' = p.adv n := by
  induction n with
  | zero =>
    intro p p' l h
    obtain ⟨hl, hp⟩ := DecodeM.pure_ok h
    exact ⟨by rw [hl]; rfl, by rw [hp, Png.adv_zero]⟩
  | succ n ih =>
    intro p p' l h
    obtain ⟨b, p₁, h1, h2⟩ := DecodeM.bind_ok h
    obtain ⟨rest, p₂, h3, h4⟩ := DecodeM.bind_ok h2
    obtain ⟨hadv1, -⟩ := Png.get_u8_ok' h1
    obtain ⟨hlen, hadv2⟩ := ih h3
    obtain ⟨hl, hp⟩ := DecodeM.pure_ok h4
    subst hadv1 hl hp
    rw [hadv2, Png.adv_adv]
    constructor
    · simp [hlen]
    · congr 1
      omega

theorem readU16List_ok {n : Nat} : ∀ {p p' : Png} {l : List Nat},
    readU16List n p = (.ok l, p') → l.length = n ∧ p' = p.adv (2 * n) := by
  induction n with
  | zero =>
    intro p p' l h
    obtain ⟨hl, hp⟩ := DecodeM.pure_ok h
    exact ⟨by rw [hl]; rfl, by rw [hp]; simp [Png.adv_zero]⟩
  | succ n ih =>
    intro p p' l h
    obtain ⟨b, p₁, h1, h2⟩ := DecodeM.bind_ok h
    obtain ⟨rest, p₂, h3, h4⟩ := DecodeM.bind_ok h2
    have hadv1 := Png.big_endian_u16_ok h1
    obtain ⟨hlen, hadv2⟩ := ih h3
    obtain ⟨hl, hp⟩ := DecodeM.pure_ok h4
    subst hadv1 hl hp
    rw [hadv2, Png.adv_adv]
    constructor
    · simp [hlen]
    · congr 1
      omega

theorem readPaletteEntries_ok {n : Nat} : ∀ {p p' : Png} {l : List PaletteEntry},
    readPaletteEntries n p = (.ok l, p') → l.length = n ∧ p' = p.adv (3 * n) := by
  induction n with
  | zero =>
    intro p p' l h
    obtain ⟨hl, hp⟩ := DecodeM.pure_ok h
    exact ⟨by rw [hl]; rfl, by rw [hp]; simp [Png.adv_zero]⟩
  | succ n ih =>
    intro p p' l h
    obtain ⟨r, p₁, h1, h⟩ := DecodeM.bind_ok h
    obtain ⟨g, p₂, h2, h⟩ := DecodeM.bind_ok h
    obtain ⟨b, p₃, h3, h⟩ := DecodeM.bind_ok h
    obtain ⟨rest, p₄, h4, h⟩ := DecodeM.bind_ok h
    obtain ⟨ha1, -⟩ := Png.get_u8_ok' h1
    obtain ⟨ha2, -⟩ := Png.get_u8_ok' h2
    obtain ⟨ha3, -⟩ := Png.get_u8_ok' h3
    obtain ⟨hlen, ha4⟩ := ih h4
    obtain ⟨hl, hp⟩ := DecodeM.pure_ok h
    subst ha1 ha2 ha3 hl hp
    rw [ha4]
    simp only [Png.adv_adv]
    constructor
    · simp [hlen]
    · congr 1
      omega

theorem spltChannel_ok {d : Nat} {p p' : Png} {v : Nat}
    (h : spltChannel d p = (.ok v, p')) : p' = p.adv (if d = 8 then 1 else 2) := by
  unfold spltChannel at h
  by_cases hd : d = 8
  · rw [if_pos hd] at h
    rw [if_pos hd]
    exact (Png.get_u8_ok' h).1
  · rw [if_neg hd] at h
    rw [if_neg hd]
    exact Png.big_endian_u16_ok h

theorem readSPLTEntries_ok {d : Nat} {n : Nat} : ∀ {p p' : Png} {l : List sPLTEntry},
    readSPLTEntries d n p = (.ok l, p') →
      l.length = n ∧ p' = p.adv (n * (4 * (if d = 8 then 1 else 2) + 4)) := by
  induction n with
  | zero =>
    intro p p' l h
    obtain ⟨hl, hp⟩ := DecodeM.pure_ok h
    exact ⟨by rw [hl]; rfl, by rw [hp]; simp [Png.adv_zero]⟩
  | succ n ih =>
    intro p p' l h
    rw [readSPLTEntries] at h
    obtain ⟨r, p₁, h1, h⟩ := DecodeM.bind_ok h
    obtain ⟨g, p₂, h2, h⟩ := DecodeM.bind_ok h
    obtain ⟨b, p₃, h3, h⟩ := DecodeM.bind_ok h
    obtain ⟨a, p₄, h4, h⟩ := DecodeM.bind_ok h
    obtain ⟨f, p₅, h5, h⟩ := DecodeM.bind_ok h
    obtain ⟨rest, p₆, h6, h⟩ := DecodeM.bind_ok h
    have ha1 := spltChannel_ok h1
    have ha2 := spltChannel_ok h2
    have ha3 := spltChannel_ok h3
    have ha4 := spltChannel_ok h4
    have ha5 := Png.big_endian_u32_ok h5
    obtain ⟨hlen, ha6⟩ := ih h6
    obtain ⟨hl, hp⟩ := DecodeM.pure_ok h
    subst ha1 ha2 ha3 ha4 ha5 hl hp
    rw [ha6]
    simp only [Png.adv_adv]
    refine ⟨by simp [hlen], ?_⟩
    congr 1
    by_cases hd : d = 8
    · simp only [if_pos hd]
      ring
    · simp only [if_neg hd]
      ring

/-! ## Preservation of the chunk list

Every reader and every chunk decoder leaves `chunk_list` untouched — the
only writer is `Png.add_chunk`, called by the decode loop itself (and the
only reader among the decoders, `bKGDChunk::new`, reads it without
modification). -/

/-- `m` never changes the chunk list, whether it succeeds or fails. -/
def ChunksPreserved {α : Type} (m : DecodeM α) : Prop :=
  ∀ p : Png, ((m p).2).chunk_list = p.chunk_list

theorem cp_pure {α : Type} (a : α) : ChunksPreserved (pure a : DecodeM α) := fun _ => rfl

theorem cp_throw {α : Type} (e : DecodeError) :
    ChunksPreserved (DecodeM.throw e : DecodeM α) := fun _ => rfl

theorem cp_bind {α β : Type} {x : DecodeM α} {f : α → DecodeM β}
    (hx : ChunksPreserved x) (hf : ∀ a, ChunksPreserved (f a)) :
    ChunksPreserved (x >>= f) := by
  intro p
  rw [DecodeM.bind_apply]
  rcases hxp : x p with ⟨r, p₁⟩
  have h₁ : p₁.chunk_list = p.chunk_list := by
    have := hx p
    rw [hxp] at this
    exact this
  cases r with
  | ok a => exact (hf a p₁).trans h₁
  | error e => exact h₁

theorem cp_ite {α : Type} {c : Prop} [Decidable c] {x y : DecodeM α}
    (hx : ChunksPreserved x) (hy : ChunksPreserved y) :
    ChunksPreserved (if c then x else y) := by
  by_cases h : c
  · rwa [if_pos h]
  · rwa [if_neg h]

theorem cp_read_bytes (n : Nat) : ChunksPreserved (Png.read_bytes n) := by
  intro p
  rw [Png.read_bytes_eq]
  split <;> rfl

theorem cp_get_u8 : ChunksPreserved Png.get_u8 :=
  cp_bind (cp_read_bytes 1) fun bs => cp_ite (cp_throw _) (cp_pure _)

theorem cp_big_endian_u16 : ChunksPreserved Png.big_endian_u16 :=
  cp_bind (cp_read_bytes 2) fun bs => cp_ite (cp_throw _) (cp_pure _)

theorem cp_big_endian_u32 : ChunksPreserved Png.big_endian_u32 :=
  cp_bind (cp_read_bytes 4) fun bs => cp_ite (cp_throw _) (cp_pure _)

theorem cp_get_u32 : ChunksPreserved Png.get_u32 :=
  cp_bind (cp_read_bytes 4) fun bs => cp_ite (cp_throw _) (cp_pure _)

theorem cp_get_u16 : ChunksPreserved Png.get_u16 :=
  cp_bind (cp_read_bytes 2) fun bs => cp_ite (cp_throw _) (cp_pure _)

theorem cp_get_string (n : Nat) : ChunksPreserved (Png.get_string n) :=
  cp_bind (cp_read_bytes n) fun bs => cp_ite (cp_pure _) (cp_throw _)

theorem cp_checkedSub (a b : Nat) : ChunksPreserved (checkedSub a b) :=
  cp_ite (cp_pure _) (cp_throw _)

theorem cp_readNullTerminatedAux_aux (p : Png) (acc : List Nat) :
    ((Png.readNullTerminatedAux p acc).2).chunk_list = p.chunk_list := by
  induction p, acc using Png.readNullTerminatedAux.induct with
  | case1 p acc e q hq =>
    rw [Png.readNullTerminatedAux_error acc hq]
    have := cp_get_u8 p
    rw [hq] at this
    exact this
  | case2 p acc q hq =>
    rw [Png.readNullTerminatedAux_zero acc hq rfl]
    have := cp_get_u8 p
    rw [hq] at this
    exact this
  | case3 p acc b q hq hb ih =>
    rw [Png.readNullTerminatedAux_cons acc hq hb]
    have := cp_get_u8 p
    rw [hq] at this
    exact ih.trans this

theorem cp_readNullTerminatedAux (acc : List Nat) :
    ChunksPreserved (fun p => Png.readNullTerminatedAux p acc) :=
  fun p => cp_readNullTerminatedAux_aux p acc

theorem cp_read_null_terminated_string : ChunksPreserved Png.read_null_terminated_string := by
  intro p
  unfold Png.read_null_terminated_string
  rcases haux : Png.readNullTerminatedAux p [] with ⟨r, q⟩
  have hq : q.chunk_list = p.chunk_list := by
    have := cp_readNullTerminatedAux_aux p []
    rw [haux] at this
    exact this
  cases r with
  | error e => exact hq
  | ok bs =>
    have hgoal : (if validUtf8 bs = true then
          ((Except.ok (bs, bs.length) : Except DecodeError (List Nat × Nat)), q)
        else (.error .invalidUtf8, q)).2.chunk_list = p.chunk_list := by
      split <;> exact hq
    exact hgoal

theorem cp_readU8List (n : Nat) : ChunksPreserved (readU8List n) := by
  induction n with
  | zero => exact cp_pure _
  | succ n ih => exact cp_bind cp_get_u8 fun b => cp_bind ih fun rest => cp_pure _

theorem cp_readU16List (n : Nat) : ChunksPreserved (readU16List n) := by
  induction n with
  | zero => exact cp_pure _
  | succ n ih => exact cp_bind cp_big_endian_u16 fun b => cp_bind ih fun rest => cp_pure _

theorem cp_readPaletteEntries (n : Nat) : ChunksPreserved (readPaletteEntries n) := by
  induction n with
  | zero => exact cp_pure _
  | succ n ih =>
    exact cp_bind cp_get_u8 fun r => cp_bind cp_get_u8 fun g => cp_bind cp_get_u8 fun b =>
      cp_bind ih fun rest => cp_pure _

theorem cp_spltChannel (d : Nat) : ChunksPreserved (spltChannel d) :=
  cp_ite cp_get_u8 cp_big_endian_u16

theorem cp_readSPLTEntries (d n : Nat) : ChunksPreserved (readSPLTEntries d n) := by
  induction n with
  | zero => exact cp_pure _
  | succ n ih =>
    rw [readSPLTEntries]
    refine cp_bind (cp_spltChannel d) fun r => ?_
    refine cp_bind (cp_spltChannel d) fun g => ?_
    refine cp_bind (cp_spltChannel d) fun b => ?_
    refine cp_bind (cp_spltChannel d) fun a => ?_
    exact cp_bind cp_big_endian_u32 fun f => cp_bind ih fun rest => cp_pure _

theorem cp_parse_color_type (b : Nat) : ChunksPreserved (parse_color_type b) :=
  cp_ite (cp_pure _) (cp_ite (cp_pure _) (cp_ite (cp_pure _)
    (cp_ite (cp_pure _) (cp_ite (cp_pure _) (cp_throw _)))))

theorem cp_parse_interlace_method (b : Nat) : ChunksPreserved (parse_interlace_method b) :=
  cp_ite (cp_pure _) (cp_ite (cp_pure _) (cp_throw _))

theorem cp_parse_rendering_intent (b : Nat) : ChunksPreserved (parse_rendering_intent b) :=
  cp_ite (cp_pure _) (cp_ite (cp_pure _) (cp_ite (cp_pure _)
    (cp_ite (cp_pure _) (cp_throw _))))

theorem cp_IDHR (L : Nat) : ChunksPreserved (IDHRChunk.new L) := by
  unfold IDHRChunk.new
  refine cp_bind cp_big_endian_u32 fun w => ?_
  refine cp_bind cp_big_endian_u32 fun h => ?_
  refine cp_bind cp_get_u8 fun bd => ?_
  refine cp_bind cp_get_u8 fun ctb => ?_
  refine cp_bind (cp_parse_color_type ctb) fun ct => ?_
  refine cp_bind cp_get_u8 fun cm => ?_
  refine cp_bind cp_get_u8 fun fm => ?_
  refine cp_bind cp_get_u8 fun imb => ?_
  refine cp_bind (cp_parse_interlace_method imb) fun im => ?_
  exact cp_bind cp_get_u32 fun crc => cp_pure _

theorem cp_PLTE (L : Nat) : ChunksPreserved (PLTEChunk.new L) := by
  unfold PLTEChunk.new
  refine cp_ite (cp_throw _) ?_
  exact cp_bind (cp_readPaletteEntries _) fun es => cp_bind cp_get_u32 fun crc => cp_pure _

theorem cp_IDAT (L : Nat) : ChunksPreserved (IDATChunk.new L) :=
  cp_bind (cp_readU8List L) fun d => cp_bind cp_get_u32 fun crc => cp_pure _

theorem cp_IEND (L : Nat) : ChunksPreserved (IENDChunk.new L) :=
  cp_bind cp_get_u32 fun crc => cp_pure _

theorem cp_read_background_color (ct : ColorType) :
    ChunksPreserved (read_background_color ct) := by
  rcases ct with _ | _ | _ | _ | _ <;>
    first
      | exact cp_bind cp_big_endian_u16 fun g => cp_pure _
      | exact cp_bind cp_big_endian_u16 fun r => cp_bind cp_big_endian_u16 fun g =>
          cp_bind cp_big_endian_u16 fun b => cp_pure _
      | exact cp_bind cp_get_u8 fun i => cp_pure _

theorem cp_bKGD (L : Nat) : ChunksPreserved (bKGDChunk.new L) := by
  intro p
  unfold bKGDChunk.new
  rcases findIDHR p.chunk_list with _ | hdr
  · rfl
  · exact (cp_bind (cp_read_background_color hdr.color_type) fun color =>
      cp_bind cp_get_u32 fun crc => cp_pure _) p

theorem cp_gAMA (L : Nat) : ChunksPreserved (gAMAChunk.new L) :=
  cp_bind cp_big_endian_u32 fun g => cp_bind cp_get_u32 fun crc => cp_pure _

theorem cp_cHRM (L : Nat) : ChunksPreserved (cHRMChunk.new L) := by
  unfold cHRMChunk.new
  refine cp_bind cp_big_endian_u32 fun a => ?_
  refine cp_bind cp_big_endian_u32 fun b => ?_
  refine cp_bind cp_big_endian_u32 fun c => ?_
  refine cp_bind cp_big_endian_u32 fun d => ?_
  refine cp_bind cp_big_endian_u32 fun e => ?_
  refine cp_bind cp_big_endian_u32 fun f => ?_
  refine cp_bind cp_big_endian_u32 fun g => ?_
  refine cp_bind cp_big_endian_u32 fun i => ?_
  exact cp_bind cp_get_u32 fun crc => cp_pure _

theorem cp_dSIG (L : Nat) : ChunksPreserved (dSIGChunk.new L) :=
  cp_bind (cp_readU8List L) fun d => cp_bind cp_get_u32 fun crc => cp_pure _

theorem cp_eXIf (L : Nat) : ChunksPreserved (eXIfChunk.new L) :=
  cp_bind (cp_readU8List L) fun d => cp_bind cp_get_u32 fun crc => cp_pure _

theorem cp_hIST (L : Nat) : ChunksPreserved (hISTChunk.new L) :=
  cp_bind (cp_readU16List (L / 2)) fun d => cp_bind cp_get_u32 fun crc => cp_pure _

theorem cp_iCCP (L : Nat) : ChunksPreserved (iCCPChunk.new L) := by
  unfold iCCPChunk.new
  refine cp_bind cp_read_null_terminated_string fun nm => ?_
  refine cp_bind cp_get_u8 fun cm => ?_
  refine cp_bind (cp_checkedSub _ _) fun d1 => ?_
  refine cp_bind (cp_checkedSub _ _) fun rem => ?_
  exact cp_bind (cp_read_bytes _) fun pr => cp_bind cp_get_u32 fun crc => cp_pure _

theorem cp_iTXt (L : Nat) : ChunksPreserved (iTXtChunk.new L) := by
  unfold iTXtChunk.new
  refine cp_bind cp_read_null_terminated_string fun kw => ?_
  refine cp_bind cp_get_u8 fun cf => ?_
  refine cp_bind cp_get_u8 fun cm => ?_
  refine cp_bind cp_read_null_terminated_string fun lt => ?_
  refine cp_bind cp_read_null_terminated_string fun tk => ?_
  refine cp_bind (cp_checkedSub _ _) fun d1 => ?_
  refine cp_bind (cp_checkedSub _ _) fun d2 => ?_
  refine cp_bind (cp_checkedSub _ _) fun d3 => ?_
  refine cp_bind (cp_checkedSub _ _) fun tc => ?_
  refine cp_bind (cp_readU8List _) fun tb => ?_
  exact cp_ite (cp_bind cp_get_u32 fun crc => cp_pure _) (cp_throw _)

theorem cp_pHYs (L : Nat) : ChunksPreserved (pHYsChunk.new L) := by
  unfold pHYsChunk.new
  refine cp_bind cp_big_endian_u32 fun x => ?_
  refine cp_bind cp_big_endian_u32 fun y => ?_
  refine cp_bind cp_get_u8 fun u => ?_
  exact cp_bind cp_get_u32 fun crc => cp_pure _

theorem cp_sBIT (L : Nat) : ChunksPreserved (sBITChunk.new L) :=
  cp_bind (cp_readU8List L) fun d => cp_bind cp_get_u32 fun crc => cp_pure _

theorem cp_sPLT (L : Nat) : ChunksPreserved (sPLTChunk.new L) := by
  unfold sPLTChunk.new
  refine cp_bind cp_read_null_terminated_string fun nm => ?_
  refine cp_bind cp_get_u8 fun d => ?_
  refine cp_bind (cp_checkedSub _ _) fun d1 => ?_
  refine cp_bind (cp_checkedSub _ _) fun d2 => ?_
  exact cp_bind (cp_readSPLTEntries _ _) fun es => cp_bind cp_get_u32 fun crc => cp_pure _

theorem cp_sRGB (L : Nat) : ChunksPreserved (sRGBChunk.new L) := by
  unfold sRGBChunk.new
  refine cp_bind cp_get_u8 fun rib => ?_
  refine cp_bind (cp_parse_rendering_intent rib) fun ri => ?_
  exact cp_bind cp_get_u32 fun crc => cp_pure _

theorem cp_sTER (L : Nat) : ChunksPreserved (sTERChunk.new L) :=
  cp_bind cp_get_u8 fun m => cp_bind cp_get_u32 fun crc => cp_pure _

theorem cp_tEXt (L : Nat) : ChunksPreserved (tEXtChunk.new L) := by
  unfold tEXtChunk.new
  refine cp_bind cp_read_null_terminated_string fun kw => ?_
  refine cp_bind (cp_checkedSub _ _) fun d1 => ?_
  refine cp_bind (cp_checkedSub _ _) fun tl => ?_
  exact cp_bind (cp_get_string _) fun t => cp_bind cp_get_u32 fun crc => cp_pure _

theorem cp_tIME (L : Nat) : ChunksPreserved (tIMEChunk.new L) := by
  unfold tIMEChunk.new
  refine cp_bind cp_big_endian_u16 fun y => ?_
  refine cp_bind cp_get_u8 fun mo => ?_
  refine cp_bind cp_get_u8 fun d => ?_
  refine cp_bind cp_get_u8 fun h => ?_
  refine cp_bind cp_get_u8 fun mi => ?_
  refine cp_bind cp_get_u8 fun s => ?_
  exact cp_bind cp_get_u32 fun crc => cp_pure _

theorem cp_tRNS (L : Nat) : ChunksPreserved (tRNSChunk.new L) :=
  cp_bind (cp_readU8List L) fun d => cp_bind cp_get_u32 fun crc => cp_pure _

theorem cp_zTXt (L : Nat) : ChunksPreserved (zTXtChunk.new L) := by
  unfold zTXtChunk.new
  refine cp_bind (cp_readNullTerminatedAux []) fun kw => ?_
  refine cp_bind cp_get_u8 fun cm => ?_
  refine cp_bind (cp_checkedSub _ _) fun d1 => ?_
  refine cp_bind (cp_checkedSub _ _) fun ct => ?_
  exact cp_bind (cp_readU8List _) fun t => cp_bind cp_get_u32 fun crc => cp_pure _

theorem DecodeM.bind_error {α β : Type} {x : DecodeM α} {f : α → DecodeM β} {p p'' : Png}
    {e : DecodeError} (h : (x >>= f) p = (.error e, p'')) :
    x p = (.error e, p'') ∨ ∃ a p₁, x p = (.ok a, p₁) ∧ f a p₁ = (.error e, p'') := by
  rw [DecodeM.bind_apply] at h
  rcases hx : x p with ⟨r, p₁⟩
  rw [hx] at h
  cases r with
  | ok a => exact Or.inr ⟨a, p₁, rfl, h⟩
  | error e' =>
    have h' : ((.error e' : Except DecodeError β), p₁) = (.error e, p'') := h
    simp only [Prod.mk.injEq, Except.error.injEq] at h'
    exact Or.inl (by rw [h'.1, h'.2])

theorem Png.add_chunk_apply (c : Chunk) (p : Png) :
    Png.add_chunk c p = (.ok (), { p with chunk_list := p.chunk_list ++ [c] }) := rfl

/-- Each dispatch arm of the decode loop appends exactly the one record it
decoded when it succeeds. -/
theorem dispatch_ok {α : Type} {new : DecodeM α} {mk : α → Chunk} {bb : Bool}
    (hcp : ChunksPreserved new) {p p' : Png} {b : Bool}
    (h : (do let c ← new; Png.add_chunk (mk c); pure bb) p = (.ok b, p')) :
    ∃ c, p'.chunk_list = p.chunk_list ++ [c] := by
  obtain ⟨c, p₁, h1, h⟩ := DecodeM.bind_ok h
  obtain ⟨u, p₂, h2, h⟩ := DecodeM.bind_ok h
  have hcl : p₁.chunk_list = p.chunk_list := by
    have := hcp p
    rw [h1] at this
    exact this
  rw [Png.add_chunk_apply] at h2
  simp only [Prod.mk.injEq] at h2
  obtain ⟨-, hp2⟩ := h2
  obtain ⟨-, hp'⟩ := DecodeM.pure_ok h
  subst hp'
  rw [← hp2]
  exact ⟨mk c, by rw [hcl]⟩

/-- Each dispatch arm leaves the chunk list alone when it fails. -/
theorem dispatch_error {α : Type} {new : DecodeM α} {mk : α → Chunk} {bb : Bool}
    (hcp : ChunksPreserved new) {p p' : Png} {e : DecodeError}
    (h : (do let c ← new; Png.add_chunk (mk c); pure bb) p = (.error e, p')) :
    p'.chunk_list = p.chunk_list := by
  rcases DecodeM.bind_error h with h | ⟨c, p₁, h1, h⟩
  · have := hcp p
    rw [h] at this
    exact this
  · have hcl : p₁.chunk_list = p.chunk_list := by
      have := hcp p
      rw [h1] at this
      exact this
    rcases DecodeM.bind_error h with h2 | ⟨u, p₂, h2, h3⟩
    · rw [Png.add_chunk_apply] at h2
      cases h2
    · exact absurd h3 (by rw [DecodeM.pure_apply]; simp)

theorem dispatchChunk_ok {ct : ChunkType} {L : Nat} {p p' : Png} {b : Bool}
    (h : dispatchChunk ct L p = (.ok b, p')) :
    ∃ c, p'.chunk_list = p.chunk_list ++ [c] := by
  cases ct <;> rw [dispatchChunk] at h <;>
    first
    | exact dispatch_ok (cp_IDHR L) h
    | exact dispatch_ok (cp_PLTE L) h
    | exact dispatch_ok (cp_IDAT L) h
    | exact dispatch_ok (cp_IEND L) h
    | exact dispatch_ok (cp_tIME L) h
    | exact dispatch_ok (cp_bKGD L) h
    | exact dispatch_ok (cp_gAMA L) h
    | exact dispatch_ok (cp_cHRM L) h
    | exact dispatch_ok (cp_dSIG L) h
    | exact dispatch_ok (cp_eXIf L) h
    | exact dispatch_ok (cp_hIST L) h
    | exact dispatch_ok (cp_iCCP L) h
    | exact dispatch_ok (cp_iTXt L) h
    | exact dispatch_ok (cp_pHYs L) h
    | exact dispatch_ok (cp_sBIT L) h
    | exact dispatch_ok (cp_sPLT L) h
    | exact dispatch_ok (cp_sRGB L) h
    | exact dispatch_ok (cp_sTER L) h
    | exact dispatch_ok (cp_tEXt L) h
    | exact dispatch_ok (cp_tRNS L) h
    | exact dispatch_ok (cp_zTXt L) h

theorem dispatchChunk_error {ct : ChunkType} {L : Nat} {p p' : Png} {e : DecodeError}
    (h : dispatchChunk ct L p = (.error e, p')) :
    p'.chunk_list = p.chunk_list := by
  cases ct <;> rw [dispatchChunk] at h <;>
    first
    | exact dispatch_error (cp_IDHR L) h
    | exact dispatch_error (cp_PLTE L) h
    | exact dispatch_error (cp_IDAT L) h
    | exact dispatch_error (cp_IEND L) h
    | exact dispatch_error (cp_tIME L) h
    | exact dispatch_error (cp_bKGD L) h
    | exact dispatch_error (cp_gAMA L) h
    | exact dispatch_error (cp_cHRM L) h
    | exact dispatch_error (cp_dSIG L) h
    | exact dispatch_error (cp_eXIf L) h
    | exact dispatch_error (cp_hIST L) h
    | exact dispatch_error (cp_iCCP L) h
    | exact dispatch_error (cp_iTXt L) h
    | exact dispatch_error (cp_pHYs L) h
    | exact dispatch_error (cp_sBIT L) h
    | exact dispatch_error (cp_sPLT L) h
    | exact dispatch_error (cp_sRGB L) h
    | exact dispatch_error (cp_sTER L) h
    | exact dispatch_error (cp_tEXt L) h
    | exact dispatch_error (cp_tRNS L) h
    | exact dispatch_error (cp_zTXt L) h

/-- On success, one iteration of the decode loop appends exactly one record. -/
theorem decodeStep_ok {p p' : Png} {b : Bool} (h : decodeStep p = (.ok b, p')) :
    ∃ c, p'.chunk_list = p.chunk_list ++ [c] := by
  unfold decodeStep at h
  obtain ⟨L, p₁, hL, h⟩ := DecodeM.bind_ok h
  obtain ⟨key, p₂, hK, h⟩ := DecodeM.bind_ok h
  have hcl1 : p₁.chunk_list = p.chunk_list := by
    have := cp_big_endian_u32 p
    rw [hL] at this
    exact this
  have hcl2 : p₂.chunk_list = p₁.chunk_list := by
    have := cp_read_bytes 4 p₁
    rw [hK] at this
    exact this
  rw [← hcl1, ← hcl2]
  rcases hct : chunk_type_map key with _ | ct
  · rw [hct] at h
    have h' : (DecodeM.throw .unknownChunkType : DecodeM Bool) p₂ = (.ok b, p') := h
    exact absurd h' (by rw [DecodeM.throw_apply]; simp)
  · rw [hct] at h
    have h' : dispatchChunk ct L p₂ = (.ok b, p') := h
    exact dispatchChunk_ok h'

/-- On failure, one iteration of the decode loop appends nothing. -/
theorem decodeStep_error {p p' : Png} {e : DecodeError} (h : decodeStep p = (.error e, p')) :
    p'.chunk_list = p.chunk_list := by
  unfold decodeStep at h
  rcases DecodeM.bind_error h with h | ⟨L, p₁, hL, h⟩
  · have := cp_big_endian_u32 p
    rw [h] at this
    exact this
  · have hcl1 : p₁.chunk_list = p.chunk_list := by
      have := cp_big_endian_u32 p
      rw [hL] at this
      exact this
    rcases DecodeM.bind_error h with h | ⟨key, p₂, hK, h⟩
    · have := cp_read_bytes 4 p₁
      rw [h] at this
      exact this.trans hcl1
    · have hcl2 : p₂.chunk_list = p₁.chunk_list := by
        have := cp_read_bytes 4 p₁
        rw [hK] at this
        exact this
      rw [← hcl1, ← hcl2]
      rcases hct : chunk_type_map key with _ | ct
      · rw [hct] at h
        have h' : ((.error DecodeError.unknownChunkType : Except DecodeError Bool), p₂) =
            (.error e, p') := h
        simp only [Prod.mk.injEq] at h'
        rw [← h'.2]
      · rw [hct] at h
        have h' : dispatchChunk ct L p₂ = (.error e, p') := h
        exact dispatchChunk_error h'

/-- The full decode loop only ever appends to the chunk list. -/
theorem get_all_chunks_extends : ∀ (fuel : Nat) (p : Png),
    ∃ t, ((get_all_chunks fuel) p).2.chunk_list = p.chunk_list ++ t := by
  intro fuel
  induction fuel with
  | zero => exact fun p => ⟨[], by simp [get_all_chunks]; rfl⟩
  | succ n ih =>
    intro p
    rw [show get_all_chunks (n + 1) =
      (decodeStep >>= fun is_end => if is_end then pure true else get_all_chunks n) from rfl]
    rw [DecodeM.bind_apply]
    rcases hs : decodeStep p with ⟨r, p₁⟩
    cases r with
    | error e => exact ⟨[], by simpa using decodeStep_error hs⟩
    | ok b =>
      obtain ⟨c, hc⟩ := decodeStep_ok hs
      cases b with
      | true => exact ⟨[c], by simpa using hc⟩
      | false =>
        obtain ⟨t, ht⟩ := ih p₁
        refine ⟨c :: t, ?_⟩
        simp only [if_neg (by simp : ¬(false = true))]
        rw [ht, hc]
        simp

/-- Forward evaluation through a successful bind. -/
theorem DecodeM.bind_eval {α β : Type} {x : DecodeM α} (f : α → DecodeM β) {p p₁ : Png}
    {a : α} (hx : x p = (.ok a, p₁)) : (x >>= f) p = f a p₁ := by
  rw [DecodeM.bind_apply, hx]

/-- Forward evaluation through a failing bind. -/
theorem DecodeM.bind_eval_error {α β : Type} {x : DecodeM α} (f : α → DecodeM β) {p p₁ : Png}
    {e : DecodeError} (hx : x p = (.error e, p₁)) : (x >>= f) p = (.error e, p₁) := by
  rw [DecodeM.bind_apply, hx]

theorem parse_color_type_ok {b : Nat} {p p' : Png} {ct : ColorType}
    (h : parse_color_type b p = (.ok ct, p')) : p' = p := by
  simp only [parse_color_type, apply_ite (fun (m : DecodeM ColorType) => m p),
    DecodeM.pure_apply, DecodeM.throw_apply] at h
  split_ifs at h <;>
    first
    | (simp only [Prod.mk.injEq] at h; exact h.2.symm)
    | simp at h

theorem parse_interlace_method_ok {b : Nat} {p p' : Png} {im : InterlaceMethod}
    (h : parse_interlace_method b p = (.ok im, p')) : p' = p := by
  simp only [parse_interlace_method, apply_ite (fun (m : DecodeM InterlaceMethod) => m p),
    DecodeM.pure_apply, DecodeM.throw_apply] at h
  split_ifs at h <;>
    first
    | (simp only [Prod.mk.injEq] at h; exact h.2.symm)
    | simp at h

theorem parse_rendering_intent_ok {b : Nat} {p p' : Png} {ri : RenderingIntent}
    (h : parse_rendering_intent b p = (.ok ri, p')) : p' = p := by
  simp only [parse_rendering_intent, apply_ite (fun (m : DecodeM RenderingIntent) => m p),
    DecodeM.pure_apply, DecodeM.throw_apply] at h
  split_ifs at h <;>
    first
    | (simp only [Prod.mk.injEq] at h; exact h.2.symm)
    | simp at h

/-- Success of `IDHRChunk::new` always consumes 13 payload bytes plus the
4-byte CRC — 17 bytes, independent of the declared length. -/
theorem IDHRChunk_new_ok {L : Nat} {p p' : Png} {c : IDHRChunk}
    (h : IDHRChunk.new L p = (.ok c, p')) : p' = p.adv 17 := by
  unfold IDHRChunk.new at h
  obtain ⟨w, p₁, h1, h⟩ := DecodeM.bind_ok h
  obtain ⟨hh, p₂, h2, h⟩ := DecodeM.bind_ok h
  obtain ⟨bd, p₃, h3, h⟩ := DecodeM.bind_ok h
  obtain ⟨ctb, p₄, h4, h⟩ := DecodeM.bind_ok h
  obtain ⟨ct, p₅, h5, h⟩ := DecodeM.bind_ok h
  obtain ⟨cm, p₆, h6, h⟩ := DecodeM.bind_ok h
  obtain ⟨fm, p₇, h7, h⟩ := DecodeM.bind_ok h
  obtain ⟨imb, p₈, h8, h⟩ := DecodeM.bind_ok h
  obtain ⟨im, p₉, h9, h⟩ := DecodeM.bind_ok h
  obtain ⟨crc, p₁₀, h10, h⟩ := DecodeM.bind_ok h
  have a1 := Png.big_endian_u32_ok h1
  have a2 := Png.big_endian_u32_ok h2
  obtain ⟨a3, -⟩ := Png.get_u8_ok' h3
  obtain ⟨a4, -⟩ := Png.get_u8_ok' h4
  have a5 := parse_color_type_ok h5
  obtain ⟨a6, -⟩ := Png.get_u8_ok' h6
  obtain ⟨a7, -⟩ := Png.get_u8_ok' h7
  obtain ⟨a8, -⟩ := Png.get_u8_ok' h8
  have a9 := parse_interlace_method_ok h9
  have a10 := Png.get_u32_ok h10
  obtain ⟨-, hp⟩ := DecodeM.pure_ok h
  subst a1 a2 a3 a4 a5 a6 a7 a8 a9 a10 hp
  simp only [Png.adv_adv]

/-- Success of `IENDChunk::new` always consumes exactly the 4 CRC bytes. -/
theorem IENDChunk_new_ok {L : Nat} {p p' : Png} {c : IENDChunk}
    (h : IENDChunk.new L p = (.ok c, p')) : p' = p.adv 4 := by
  unfold IENDChunk.new at h
  obtain ⟨crc, p₁, h1, h⟩ := DecodeM.bind_ok h
  have a1 := Png.get_u32_ok h1
  obtain ⟨-, hp⟩ := DecodeM.pure_ok h
  subst a1 hp
  rfl

/-- Success of `IDATChunk::new` consumes the declared length plus 4. -/
theorem IDATChunk_new_ok {L : Nat} {p p' : Png} {c : IDATChunk}
    (h : IDATChunk.new L p = (.ok c, p')) : p' = p.adv (L + 4) := by
  unfold IDATChunk.new at h
  obtain ⟨d, p₁, h1, h⟩ := DecodeM.bind_ok h
  obtain ⟨crc, p₂, h2, h⟩ := DecodeM.bind_ok h
  obtain ⟨-, a1⟩ := readU8List_ok h1
  have a2 := Png.get_u32_ok h2
  obtain ⟨-, hp⟩ := DecodeM.pure_ok h
  subst a1 a2 hp
  rw [Png.adv_adv]

/-- Closed form of `big_endian_u32`. -/
theorem Png.big_endian_u32_eq (p : Png) :
    Png.big_endian_u32 p =
      if p.data_stream.sequential_counter + 4 ≤ p.data.length then
        (.ok (((p.data.drop p.data_stream.sequential_counter).take 4).getD 0 0 <<< 24 |||
              ((p.data.drop p.data_stream.sequential_counter).take 4).getD 1 0 <<< 16 |||
              ((p.data.drop p.data_stream.sequential_counter).take 4).getD 2 0 <<< 8 |||
              ((p.data.drop p.data_stream.sequential_counter).take 4).getD 3 0), p.adv 4)
      else (.error .outOfBounds, p) := by
  unfold Png.big_endian_u32
  split
  · next hle =>
    rw [DecodeM.bind_eval _ (by rw [Png.read_bytes_eq, if_pos hle]),
      if_neg (by simp; omega)]
    exact DecodeM.pure_apply _ _
  · next hlt =>
    rw [DecodeM.bind_eval_error _ (by rw [Png.read_bytes_eq, if_neg hlt])]

/-- Closed form of `big_endian_u16`. -/
theorem Png.big_endian_u16_eq (p : Png) :
    Png.big_endian_u16 p =
      if p.data_stream.sequential_counter + 2 ≤ p.data.length then
        (.ok (((p.data.drop p.data_stream.sequential_counter).take 2).getD 0 0 <<< 8 |||
              ((p.data.drop p.data_stream.sequential_counter).take 2).getD 1 0), p.adv 2)
      else (.error .outOfBounds, p) := by
  unfold Png.big_endian_u16
  split
  · next hle =>
    rw [DecodeM.bind_eval _ (by rw [Png.read_bytes_eq, if_pos hle]),
      if_neg (by simp; omega)]
    exact DecodeM.pure_apply _ _
  · next hlt =>
    rw [DecodeM.bind_eval_error _ (by rw [Png.read_bytes_eq, if_neg hlt])]

/-- Closed form of `get_u32`. -/
theorem Png.get_u32_eq (p : Png) :
    Png.get_u32 p =
      if p.data_stream.sequential_counter + 4 ≤ p.data.length then
        (.ok ((p.data.drop p.data_stream.sequential_counter).take 4), p.adv 4)
      else (.error .outOfBounds, p) := by
  unfold Png.get_u32
  split
  · next hle =>
    rw [DecodeM.bind_eval _ (by rw [Png.read_bytes_eq, if_pos hle]),
      if_neg (by simp; omega)]
    exact DecodeM.pure_apply _ _
  · next hlt =>
    rw [DecodeM.bind_eval_error _ (by rw [Png.read_bytes_eq, if_neg hlt])]

/-! ## The claims -/

/-- C5: for every read of `n` bytes from the cursor, if fewer than `n` bytes
remain from the current offset the read returns an out-of-bounds error and
the offset is unchanged; otherwise it returns exactly the next `n` bytes
(a list of length `n`) and advances the offset by exactly `n`, so
`offset ≤ buffer.length` holds after every operation. -/
theorem C5_read_bytes_sequential (s : PngStream) (byte_list : List Nat) (range : Nat) :
    (byte_list.length < s.sequential_counter + range →
      s.read_bytes_sequential byte_list range = (.error .outOfBounds, s)) ∧
    (s.sequential_counter + range ≤ byte_list.length →
      s.read_bytes_sequential byte_list range =
        (.ok ((byte_list.drop s.sequential_counter).take range),
          ⟨s.sequential_counter + range⟩) ∧
      ((byte_list.drop s.sequential_counter).take range).length = range ∧
      s.sequential_counter + range ≤ byte_list.length) := by
  constructor
  · intro hlt
    unfold PngStream.read_bytes_sequential
    rw [if_neg (by omega)]
  · intro hle
    unfold PngStream.read_bytes_sequential
    rw [if_pos (by omega)]
    refine ⟨rfl, ?_, hle⟩
    simp
    omega

/-- Witness for C5 at concrete inputs: a successful 2-byte read from offset
1 of a 3-byte buffer, and a failing 2-byte read from offset 2. -/
theorem C5_witness :
    PngStream.read_bytes_sequential ⟨1⟩ [10, 20, 30] 2 = (.ok [20, 30], ⟨3⟩) ∧
    PngStream.read_bytes_sequential ⟨2⟩ [10, 20, 30] 2 = (.error .outOfBounds, ⟨2⟩) :=
  ⟨((C5_read_bytes_sequential ⟨1⟩ [10, 20, 30] 2).2 (by decide)).1,
   (C5_read_bytes_sequential ⟨2⟩ [10, 20, 30] 2).1 (by decide)⟩

/-- The state on which the C2 failing input is decoded: a 3-byte `hIST`
payload `[1, 2, 7]` followed by 4 candidate CRC bytes. -/
def pngC2 : Png :=
  { data := [1, 2, 7, 9, 9, 9, 9], data_stream := ⟨0⟩, chunk_list := [],
    signature_verified := true, png_signature := pngSignature }

/-- C2 (failing input): `hISTChunk::new` with the odd declared length 3
does not fail — it decodes `floor(3 / 2) = 1` two-byte count and succeeds,
consuming only `2 + 4 = 6` bytes, so the byte at offset 2 (value 7) is
neither decoded nor skipped and ends up read as the first CRC byte. -/
theorem C2_hIST_odd_length_succeeds :
    hISTChunk.new 3 pngC2 =
      (.ok { length := 3, data := [258], CRC := [7, 9, 9, 9] },
        { pngC2 with data_stream := ⟨6⟩ }) ∧
    3 % 2 = 1 := ⟨rfl, rfl⟩

/-- The state for the C1 counterexample: 17 bytes forming a valid header
layout, decoded with a declared length of 0. -/
def pngC1 : Png :=
  { data := [0, 0, 0, 1, 0, 0, 0, 1, 8, 0, 0, 0, 0, 1, 2, 3, 4, 99],
    data_stream := ⟨0⟩, chunk_list := [], signature_verified := true,
    png_signature := pngSignature }

/-- C1 counterexample: the header decoder called with declared length 0
succeeds and consumes 17 bytes, not `0 + 4` — fixed-layout decoders ignore
the declared length entirely. -/
theorem C1_counterexample :
    IDHRChunk.new 0 pngC1 =
      (.ok { length := 0, width := 1, height := 1, bit_depth := 8,
             color_type := .Grayscale, compression_method := 0, filter_method := 0,
             interlace_method := .None, CRC := [1, 2, 3, 4] },
        { pngC1 with data_stream := ⟨17⟩ }) ∧
    17 ≠ 0 + 4 := ⟨rfl, by decide⟩

/-- C1 as amended: a successful decoder consumes the byte count its own
field grammar dictates — the fixed-layout header always consumes 13 + 4
bytes and the terminal chunk always consumes 0 + 4 bytes, whatever length
was declared (so declared length + 4 only when the declared length matches
the layout), while a length-driven chunk such as the image-data chunk
consumes exactly the declared length + 4. -/
theorem C1_amended_consumption :
    (∀ (L : Nat) (p p' : Png) (c : IDHRChunk), IDHRChunk.new L p = (.ok c, p') →
      p'.data_stream.sequential_counter = p.data_stream.sequential_counter + 17) ∧
    (∀ (L : Nat) (p p' : Png) (c : IENDChunk), IENDChunk.new L p = (.ok c, p') →
      p'.data_stream.sequential_counter = p.data_stream.sequential_counter + 4) ∧
    (∀ (L : Nat) (p p' : Png) (c : IDATChunk), IDATChunk.new L p = (.ok c, p') →
      p'.data_stream.sequential_counter = p.data_stream.sequential_counter + (L + 4)) :=
  ⟨fun _ _ _ _ h => by rw [IDHRChunk_new_ok h]; rfl,
   fun _ _ _ _ h => by rw [IENDChunk_new_ok h]; rfl,
   fun L _ _ _ h => by rw [IDATChunk_new_ok h]; rfl⟩

/-- Witness for the amended C1, applying it to the concrete header decode of
`C1_counterexample`'s input. -/
theorem C1_amended_witness :
    ({ pngC1 with data_stream := ⟨17⟩ } : Png).data_stream.sequential_counter =
      pngC1.data_stream.sequential_counter + 17 :=
  C1_amended_consumption.1 0 pngC1 { pngC1 with data_stream := ⟨17⟩ }
    { length := 0, width := 1, height := 1, bit_depth := 8,
      color_type := .Grayscale, compression_method := 0, filter_method := 0,
      interlace_method := .None, CRC := [1, 2, 3, 4] } rfl

theorem read_background_color_ok {ct : ColorType} {p p' : Png} {col : Color}
    (h : read_background_color ct p = (.ok col, p')) :
    ((ct = .Grayscale ∨ ct = .GrayscaleAlpha) → p' = p.adv 2 ∧ ∃ g, col = .Gray g) ∧
    ((ct = .RGB ∨ ct = .RGBA) → p' = p.adv 6 ∧ ∃ r g b, col = .RGB r g b) ∧
    (ct = .Indexed → p' = p.adv 1 ∧ ∃ i, col = .PaletteIndex i) := by
  cases ct
  all_goals simp only [read_background_color] at h
  case Grayscale | GrayscaleAlpha =>
    obtain ⟨g, p₁, h1, h⟩ := DecodeM.bind_ok h
    have a1 := Png.big_endian_u16_ok h1
    obtain ⟨hcol, hp⟩ := DecodeM.pure_ok h
    subst a1 hp hcol
    refine ⟨fun _ => ⟨rfl, g, rfl⟩, fun hc => ?_, fun hc => ?_⟩
    · rcases hc with hc | hc <;> exact absurd hc (by decide)
    · exact absurd hc (by decide)
  case RGB | RGBA =>
    obtain ⟨r, p₁, h1, h⟩ := DecodeM.bind_ok h
    obtain ⟨g, p₂, h2, h⟩ := DecodeM.bind_ok h
    obtain ⟨b, p₃, h3, h⟩ := DecodeM.bind_ok h
    have a1 := Png.big_endian_u16_ok h1
    have a2 := Png.big_endian_u16_ok h2
    have a3 := Png.big_endian_u16_ok h3
    obtain ⟨hcol, hp⟩ := DecodeM.pure_ok h
    subst a1 a2 a3 hp hcol
    refine ⟨fun hc => ?_, fun _ => ⟨by rw [Png.adv_adv, Png.adv_adv], r, g, b, rfl⟩,
            fun hc => ?_⟩
    · rcases hc with hc | hc <;> exact absurd hc (by decide)
    · exact absurd hc (by decide)
  case Indexed =>
    obtain ⟨i, p₁, h1, h⟩ := DecodeM.bind_ok h
    obtain ⟨a1, -⟩ := Png.get_u8_ok' h1
    obtain ⟨hcol, hp⟩ := DecodeM.pure_ok h
    subst a1 hp hcol
    refine ⟨fun hc => ?_, fun hc => ?_, fun _ => ⟨rfl, i, rfl⟩⟩
    · rcases hc with hc | hc <;> exact absurd hc (by decide)
    · rcases hc with hc | hc <;> exact absurd hc (by decide)

/-- C4: decoding a background-color chunk with no header record in the
chunk list fails with the missing-dependency error (and the state is left
untouched); with a header present, the payload shape follows the header's
color mode — one 2-byte value for the grayscale modes, three 2-byte values
for RGB/RGBA, one 1-byte palette index for indexed — plus the 4 CRC bytes,
so the cursor advances by 6, 10 and 5 bytes respectively. -/
theorem C4_bKGD_dependency (L : Nat) (p : Png) :
    (findIDHR p.chunk_list = none → bKGDChunk.new L p = (.error .IDHRNotFound, p)) ∧
    (∀ (p' : Png) (hdr : IDHRChunk) (c : bKGDChunk),
      findIDHR p.chunk_list = some hdr → bKGDChunk.new L p = (.ok c, p') →
      ((hdr.color_type = .Grayscale ∨ hdr.color_type = .GrayscaleAlpha) →
        p' = p.adv 6 ∧ ∃ g, c.color = .Gray g) ∧
      ((hdr.color_type = .RGB ∨ hdr.color_type = .RGBA) →
        p' = p.adv 10 ∧ ∃ r g b, c.color = .RGB r g b) ∧
      (hdr.color_type = .Indexed →
        p' = p.adv 5 ∧ ∃ i, c.color = .PaletteIndex i)) := by
  constructor
  · intro hnone
    unfold bKGDChunk.new
    rw [hnone]
  · intro p' hdr c hsome h
    unfold bKGDChunk.new at h
    rw [hsome] at h
    have h' : (do
        let color ← read_background_color hdr.color_type
        let CRC ← Png.get_u32
        pure { length := L, color := color, CRC := CRC : bKGDChunk }) p = (.ok c, p') := h
    obtain ⟨col, p₁, h1, h'⟩ := DecodeM.bind_ok h'
    obtain ⟨crc, p₂, h2, h'⟩ := DecodeM.bind_ok h'
    have a2 := Png.get_u32_ok h2
    obtain ⟨hc, hp⟩ := DecodeM.pure_ok h'
    obtain ⟨hg, hrgb, hidx⟩ := read_background_color_ok h1
    subst a2 hp hc
    refine ⟨?_, ?_, ?_⟩
    · intro hct
      obtain ⟨ha, g, hcol⟩ := hg hct
      subst ha
      exact ⟨by rw [Png.adv_adv], g, by simpa using hcol⟩
    · intro hct
      obtain ⟨ha, r, g, b, hcol⟩ := hrgb hct
      subst ha
      exact ⟨by rw [Png.adv_adv], r, g, b, by simpa using hcol⟩
    · intro hct
      obtain ⟨ha, i, hcol⟩ := hidx hct
      subst ha
      exact ⟨by rw [Png.adv_adv], i, by simpa using hcol⟩

/-- A header record with RGB color mode, for the C4 witness. -/
def hdrRGB : IDHRChunk :=
  { length := 13, width := 1, height := 1, bit_depth := 8, color_type := .RGB,
    compression_method := 0, filter_method := 0, interlace_method := .None,
    CRC := [0, 0, 0, 0] }

/-- C4 witness state: a 6-byte RGB background payload plus CRC, with the RGB
header already in the chunk list. -/
def pngC4 : Png :=
  { data := [0, 1, 0, 2, 0, 3, 4, 4, 4, 4], data_stream := ⟨0⟩,
    chunk_list := [.IDHR hdrRGB], signature_verified := true,
    png_signature := pngSignature }

/-- Same state with an empty chunk list (no header). -/
def pngC4n : Png :=
  { data := [0, 1, 0, 2, 0, 3, 4, 4, 4, 4], data_stream := ⟨0⟩,
    chunk_list := [], signature_verified := true, png_signature := pngSignature }

/-- Witness for C4: decoding with no header fails with the dependency
error; decoding after an RGB header consumes 10 bytes and yields an RGB
triple. -/
theorem C4_witness :
    bKGDChunk.new 6 pngC4n = (.error .IDHRNotFound, pngC4n) ∧
    (pngC4.adv 10 = pngC4.adv 10 ∧ ∃ r g b,
      ({ length := 6, color := .RGB 1 2 3, CRC := [4, 4, 4, 4] } : bKGDChunk).color =
        .RGB r g b) :=
  ⟨(C4_bKGD_dependency 6 pngC4n).1 rfl,
   ((C4_bKGD_dependency 6 pngC4).2 (pngC4.adv 10) hdrRGB
      { length := 6, color := .RGB 1 2 3, CRC := [4, 4, 4, 4] } rfl rfl).2.1
     (Or.inl rfl)⟩

/-- C10: whenever the suggested-palette decoder succeeds, each channel value
was read as 1 byte exactly when the sample-depth byte equals 8 and as 2
bytes for every other sample depth (no error is raised for a depth outside
8/16 — success is possible for any depth value), the entry count is the
flooring division `(length - name_length - 2) / entry_length` with
`entry_length` 6 or 10 (no exact-divisibility requirement), and the cursor
advance is name + terminator + depth byte + entries (4 channels of the
depth-determined width plus a 4-byte frequency each) + 4 CRC bytes. -/
theorem C10_sPLT_shape (L : Nat) (p p' : Png) (c : sPLTChunk)
    (h : sPLTChunk.new L p = (.ok c, p')) :
    c.palette_name.length + 2 ≤ L ∧
    c.entries.length =
      (L - c.palette_name.length - 2) / (if c.sample_depth = 8 then 6 else 10) ∧
    p' = p.adv ((c.palette_name.length + 1) + 1 +
      c.entries.length * (4 * (if c.sample_depth = 8 then 1 else 2) + 4) + 4) := by
  unfold sPLTChunk.new at h
  obtain ⟨nm, p₁, h1, h⟩ := DecodeM.bind_ok h
  rcases nm with ⟨name, name_length⟩
  obtain ⟨depth, p₂, h2, h⟩ := DecodeM.bind_ok h
  obtain ⟨d1, p₃, h3, h⟩ := DecodeM.bind_ok h
  obtain ⟨d2, p₄, h4, h⟩ := DecodeM.bind_ok h
  obtain ⟨entries, p₅, h5, h⟩ := DecodeM.bind_ok h
  obtain ⟨crc, p₆, h6, h⟩ := DecodeM.bind_ok h
  obtain ⟨hn, a1⟩ := Png.read_null_terminated_string_ok h1
  obtain ⟨a2, -⟩ := Png.get_u8_ok' h2
  obtain ⟨hd1, hle1, a3⟩ := checkedSub_ok h3
  obtain ⟨hd2, hle2, a4⟩ := checkedSub_ok h4
  obtain ⟨hlen, a5⟩ := readSPLTEntries_ok h5
  have a6 := Png.get_u32_ok h6
  obtain ⟨hc, hp⟩ := DecodeM.pure_ok h
  subst hn hd1 hd2 a1 a2 a3 a4 a5 a6 hp hc
  dsimp only
  refine ⟨by omega, by rw [hlen], ?_⟩
  rw [hlen]
  simp only [Png.adv_adv]

/-- The C10 witness state: empty palette name, sample depth 9, declared
length 17, one entry's worth of 2-byte channels plus a remainder of 5
ignored by the flooring division. -/
def pngC10 : Png :=
  { data := [0, 9, 0, 1, 0, 2, 0, 3, 0, 4, 0, 0, 0, 5, 7, 7, 7, 7],
    data_stream := ⟨0⟩, chunk_list := [], signature_verified := true,
    png_signature := pngSignature }

/-- The record the C10 witness decodes. -/
def spltC10 : sPLTChunk :=
  { length := 17, palette_name := [], sample_depth := 9,
    entries := [{ red := 1, green := 2, blue := 3, alpha := 4, frequency := 5 }],
    CRC := [7, 7, 7, 7] }

/-- Witness for C10 at sample depth 9 (neither 8 nor 16) and declared
length 17 with `(17 - 0 - 2) % 10 = 5 ≠ 0`: the decode succeeds anyway. -/
theorem C10_witness :
    spltC10.palette_name.length + 2 ≤ 17 ∧
    spltC10.entries.length =
      (17 - spltC10.palette_name.length - 2) / (if spltC10.sample_depth = 8 then 6 else 10) ∧
    pngC10.adv 18 = pngC10.adv ((spltC10.palette_name.length + 1) + 1 +
      spltC10.entries.length * (4 * (if spltC10.sample_depth = 8 then 1 else 2) + 4) + 4) := by
  have h0 : Png.get_u8 pngC10 = (.ok 0, pngC10.adv 1) := rfl
  have haux := Png.readNullTerminatedAux_zero [] h0 rfl
  have hnt : Png.read_null_terminated_string pngC10 = (.ok (([] : List Nat), 0), pngC10.adv 1) := by
    unfold Png.read_null_terminated_string
    rw [haux]
    rfl
  have hsplt : sPLTChunk.new 17 pngC10 = (.ok spltC10, pngC10.adv 18) := by
    unfold sPLTChunk.new
    rw [DecodeM.bind_eval _ hnt]
    rfl
  obtain ⟨ha, hb, hc⟩ := C10_sPLT_shape 17 pngC10 (pngC10.adv 18) spltC10 hsplt
  exact ⟨ha, hb, by rw [← hc]⟩

/-- C8: when the 4 tag bytes after the length are not in the registry, one
decode-loop iteration fails with the unknown-chunk-type error having
consumed exactly the 8 length/tag bytes — the declared length is never used
to skip the chunk — no record is appended, and the whole loop fails the
same way on its first iteration. -/
theorem C8_unknown_tag (p : Png) (tag : List Nat)
    (h8 : p.data_stream.sequential_counter + 8 ≤ p.data.length)
    (htag : (p.data.drop (p.data_stream.sequential_counter + 4)).take 4 = tag)
    (hun : chunk_type_map tag = none) :
    (decodeStep p).1 = .error .unknownChunkType ∧
    (decodeStep p).2.chunk_list = p.chunk_list ∧
    (decodeStep p).2.data_stream.sequential_counter =
      p.data_stream.sequential_counter + 8 ∧
    ∀ fuel, ((get_all_chunks (fuel + 1)) p).1 = .error .unknownChunkType ∧
      ((get_all_chunks (fuel + 1)) p).2.chunk_list = p.chunk_list := by
  have hrb1 : Png.read_bytes 4 p =
      (.ok ((p.data.drop p.data_stream.sequential_counter).take 4), p.adv 4) := by
    rw [Png.read_bytes_eq, if_pos (by omega)]
    rfl
  have hlen1 : ((p.data.drop p.data_stream.sequential_counter).take 4).length = 4 := by
    simp
    omega
  have hbe : Png.big_endian_u32 p =
      (.ok (((p.data.drop p.data_stream.sequential_counter).take 4).getD 0 0 <<< 24 |||
            ((p.data.drop p.data_stream.sequential_counter).take 4).getD 1 0 <<< 16 |||
            ((p.data.drop p.data_stream.sequential_counter).take 4).getD 2 0 <<< 8 |||
            ((p.data.drop p.data_stream.sequential_counter).take 4).getD 3 0), p.adv 4) := by
    unfold Png.big_endian_u32
    rw [DecodeM.bind_eval _ hrb1, if_neg (by simp [hlen1])]
    rfl
  have hrb2 : Png.read_bytes 4 (p.adv 4) = (.ok tag, (p.adv 4).adv 4) := by
    rw [Png.read_bytes_eq,
      if_pos (by show p.data_stream.sequential_counter + 4 + 4 ≤ p.data.length; omega)]
    show ((.ok ((p.data.drop (p.data_stream.sequential_counter + 4)).take 4) :
      Except DecodeError (List Nat)), (p.adv 4).adv 4) = (.ok tag, (p.adv 4).adv 4)
    rw [htag]
  have hstep : decodeStep p = (.error .unknownChunkType, (p.adv 4).adv 4) := by
    unfold decodeStep
    rw [DecodeM.bind_eval _ hbe, DecodeM.bind_eval _ hrb2, hun]
    rfl
  refine ⟨by rw [hstep], by rw [hstep]; rfl, by rw [hstep]; show _ + 4 + 4 = _ + 8; omega,
    fun fuel => ?_⟩
  have hloop : get_all_chunks (fuel + 1) p = (.error .unknownChunkType, (p.adv 4).adv 4) := by
    rw [show get_all_chunks (fuel + 1) =
      (decodeStep >>= fun is_end => if is_end then pure true else get_all_chunks fuel)
      from rfl]
    rw [DecodeM.bind_eval_error _ hstep]
  rw [hloop]
  exact ⟨rfl, rfl⟩

/-- C8 witness state: an in-bounds chunk whose tag is `"abcd"`, which is
not one of the 21 registered tags. -/
def pngC8 : Png :=
  { data := [0, 0, 0, 1, 97, 98, 99, 100, 55, 9, 9, 9, 9], data_stream := ⟨0⟩,
    chunk_list := [], signature_verified := true, png_signature := pngSignature }

/-- Witness for C8: the tag `"abcd"` makes the loop fail with the
unknown-chunk-type error, appending nothing and consuming only 8 bytes. -/
theorem C8_witness :
    (decodeStep pngC8).1 = .error .unknownChunkType ∧
    (decodeStep pngC8).2.chunk_list = pngC8.chunk_list ∧
    (decodeStep pngC8).2.data_stream.sequential_counter =
      pngC8.data_stream.sequential_counter + 8 ∧
    ∀ fuel, ((get_all_chunks (fuel + 1)) pngC8).1 = .error .unknownChunkType ∧
      ((get_all_chunks (fuel + 1)) pngC8).2.chunk_list = pngC8.chunk_list :=
  C8_unknown_tag pngC8 [97, 98, 99, 100] (by decide) (by decide) (by decide)

/-- C7: the chunk list only grows by appending — a successful loop iteration
appends exactly one record, a failing one appends nothing, and however much
fuel the loop is run with, the resulting chunk list is the initial list plus
a suffix appended in decode order (records already present are never
modified, removed or reordered). -/
theorem C7_order_preservation :
    (∀ (p p' : Png) (b : Bool), decodeStep p = (.ok b, p') →
      ∃ c, p'.chunk_list = p.chunk_list ++ [c]) ∧
    (∀ (p p' : Png) (e : DecodeError), decodeStep p = (.error e, p') →
      p'.chunk_list = p.chunk_list) ∧
    (∀ (fuel : Nat) (p : Png), ∃ t,
      ((get_all_chunks fuel) p).2.chunk_list = p.chunk_list ++ t) :=
  ⟨fun _ _ _ => decodeStep_ok, fun _ _ _ => decodeStep_error, get_all_chunks_extends⟩

/-- C7 witness state: a single terminal chunk. -/
def pngC7 : Png :=
  { data := [0, 0, 0, 0, 73, 69, 78, 68, 1, 1, 1, 1], data_stream := ⟨0⟩,
    chunk_list := [], signature_verified := true, png_signature := pngSignature }

/-- The record and state produced by decoding `pngC7`'s terminal chunk. -/
def iendC7 : IENDChunk := { length := 0, CRC := [1, 1, 1, 1] }

def pngC7done : Png :=
  { pngC7 with data_stream := ⟨12⟩, chunk_list := [Chunk.IEND iendC7] }

/-- Witness for C7: decoding the terminal chunk appends exactly one record. -/
theorem C7_witness : ∃ c, pngC7done.chunk_list = pngC7.chunk_list ++ [c] :=
  C7_order_preservation.1 pngC7 pngC7done true rfl

/-- C3 failing state 1: a `tEXt` chunk with declared length 0 whose payload
starts with a NUL byte, so `length - keyword_length - 1 = 0 - 0 - 1`
underflows. -/
def pngC3t : Png :=
  { data := [0, 1, 2, 3, 4, 5], data_stream := ⟨0⟩, chunk_list := [],
    signature_verified := true, png_signature := pngSignature }

/-- C3 failing state 2: a well-formed `iTXt` chunk — keyword `"k"` + NUL,
two flag bytes, empty language tag + NUL, empty translated keyword + NUL,
2-byte text `"ab"` — declared length 8, followed by the 4 CRC bytes and 3
trailing bytes. -/
def pngC3i : Png :=
  { data := [107, 0, 0, 0, 0, 0, 97, 98, 11, 12, 13, 14, 21, 22, 23],
    data_stream := ⟨0⟩, chunk_list := [], signature_verified := true,
    png_signature := pngSignature }

/-- C3 (failing inputs): the text-family length arithmetic is wrong in two
ways.  (1) A `tEXt` chunk whose declared length is smaller than the
keyword-plus-terminator byte count underflows the `u32` subtraction, which
is a debug-build panic, not a returned length error.  (2) A well-formed
`iTXt` chunk is silently misaligned on success: the text count
`length - keyword_length - language_tag_length - translated_keyword_length - 2`
forgets the 3 NUL terminators, so the decoder reads 3 bytes past the
declared payload (here the text comes out as `"ab"` plus 3 CRC bytes and
15 bytes are consumed instead of `8 + 4 = 12`). -/
theorem C3_text_length_arithmetic :
    tEXtChunk.new 0 pngC3t = (.error .arithmeticOverflow, pngC3t.adv 1) ∧
    iTXtChunk.new 8 pngC3i =
      (.ok { length := 8, keyword := [107], compression_flag := 0,
             compression_method := 0, language_tag := [], translated_keyword := [],
             text := [97, 98, 11, 12, 13], CRC := [14, 21, 22, 23] },
        pngC3i.adv 15) ∧
    15 ≠ 8 + 4 := by
  refine ⟨?_, ?_, by decide⟩
  · have h0 : Png.get_u8 pngC3t = (.ok 0, pngC3t.adv 1) := rfl
    have haux := Png.readNullTerminatedAux_zero [] h0 rfl
    have hnt : Png.read_null_terminated_string pngC3t =
        (.ok (([] : List Nat), 0), pngC3t.adv 1) := by
      unfold Png.read_null_terminated_string
      rw [haux]
      rfl
    unfold tEXtChunk.new
    rw [DecodeM.bind_eval _ hnt]
    rfl
  · have ha1 : Png.get_u8 pngC3i = (.ok 107, pngC3i.adv 1) := rfl
    have ha2 : Png.get_u8 (pngC3i.adv 1) = (.ok 0, pngC3i.adv 2) := rfl
    have hauxk : Png.readNullTerminatedAux pngC3i [] = (.ok [107], pngC3i.adv 2) := by
      rw [Png.readNullTerminatedAux_cons [] ha1 (by decide)]
      simp only [List.nil_append]
      exact Png.readNullTerminatedAux_zero [107] ha2 rfl
    have hntk : Png.read_null_terminated_string pngC3i =
        (.ok ([107], 1), pngC3i.adv 2) := by
      unfold Png.read_null_terminated_string
      rw [hauxk]
      rfl
    have hauxl := Png.readNullTerminatedAux_zero []
      (show Png.get_u8 (pngC3i.adv 4) = (.ok 0, pngC3i.adv 5) from rfl) rfl
    have hntl : Png.read_null_terminated_string (pngC3i.adv 4) =
        (.ok (([] : List Nat), 0), pngC3i.adv 5) := by
      unfold Png.read_null_terminated_string
      rw [hauxl]
      rfl
    have hauxt := Png.readNullTerminatedAux_zero []
      (show Png.get_u8 (pngC3i.adv 5) = (.ok 0, pngC3i.adv 6) from rfl) rfl
    have hntt : Png.read_null_terminated_string (pngC3i.adv 5) =
        (.ok (([] : List Nat), 0), pngC3i.adv 6) := by
      unfold Png.read_null_terminated_string
      rw [hauxt]
      rfl
    unfold iTXtChunk.new
    rw [DecodeM.bind_eval _ hntk]
    simp only [DecodeM.bind_apply, hntl, hntt,
      show Png.get_u8 (pngC3i.adv 2) = (.ok 0, pngC3i.adv 3) from rfl,
      show Png.get_u8 (pngC3i.adv 3) = (.ok 0, pngC3i.adv 4) from rfl]
    rfl

/-- The C9 buffer: the magic signature with its third byte altered
(78 → 99), followed by a valid minimal header chunk and terminal chunk. -/
def badSigBuf : List Nat :=
  [137, 80, 99, 71, 13, 10, 26, 10,
   0, 0, 0, 13, 73, 72, 68, 82,
   0, 0, 0, 1, 0, 0, 0, 1, 8, 0, 0, 0, 0, 1, 2, 3, 4,
   0, 0, 0, 0, 73, 69, 78, 68, 5, 6, 7, 8]

/-- The session created from `badSigBuf`. -/
def pngC9 : Png :=
  { data := badSigBuf, data_stream := ⟨8⟩, chunk_list := [],
    signature_verified := false, png_signature := pngSignature }

def hdrC9 : IDHRChunk :=
  { length := 13, width := 1, height := 1, bit_depth := 8,
    color_type := .Grayscale, compression_method := 0, filter_method := 0,
    interlace_method := .None, CRC := [1, 2, 3, 4] }

def iendC9 : IENDChunk := { length := 0, CRC := [5, 6, 7, 8] }

def pngC9done : Png :=
  { pngC9 with
    data_stream := ⟨45⟩,
    chunk_list := [Chunk.IDHR hdrC9, Chunk.IEND iendC9] }

/-- C9: session creation consumes the 8 signature bytes and only records a
boolean — for any buffer whose first 8 bytes differ from the magic
signature the flag is set to `false` (and decoding is not aborted), and for
a buffer beginning with the exact signature it is `true`; concretely,
altering the signature's third byte leaves the flag `false` while decoding
of the remaining bytes still proceeds to completion. -/
theorem C9_signature_flag :
    (∀ (data : List Nat) (p : Png), 8 ≤ data.length → data.take 8 ≠ pngSignature →
      Png.new data = some p →
      p.signature_verified = false ∧ p.data_stream.sequential_counter = 8 ∧
        p.data = data ∧ p.chunk_list = []) ∧
    (∀ (data : List Nat) (p : Png), data.take 8 = pngSignature →
      Png.new data = some p → p.signature_verified = true) ∧
    (Png.new badSigBuf = some pngC9 ∧ pngC9.signature_verified = false ∧
      get_all_chunks 2 pngC9 = (.ok true, pngC9done)) := by
  have hread : ∀ data : List Nat, 8 ≤ data.length →
      PngStream.read_bytes_sequential ⟨0⟩ data 8 = (.ok (data.take 8), ⟨8⟩) := by
    intro data hlen
    unfold PngStream.read_bytes_sequential
    rw [if_pos (by simpa using hlen)]
    simp
  refine ⟨?_, ?_, rfl, rfl, ?_⟩
  case refine_3 =>
    simp [get_all_chunks, decodeStep, dispatchChunk, IDHRChunk.new, IENDChunk.new,
      parse_color_type, parse_interlace_method, chunk_type_map,
      Png.big_endian_u32_eq, Png.get_u8_eq, Png.get_u32_eq, Png.read_bytes_eq,
      Png.add_chunk_apply,
      DecodeM.bind_apply, DecodeM.pure_apply, DecodeM.throw_apply, Png.adv,
      pngC9, pngC9done, hdrC9, iendC9, badSigBuf]
  · intro data p hlen hne hnew
    simp only [Png.new, PngStream.new] at hnew
    rw [hread data hlen] at hnew
    replace hnew : some
        ({ data := data, data_stream := ⟨8⟩, chunk_list := [],
           signature_verified := if data.take 8 = pngSignature then true else false,
           png_signature := pngSignature } : Png) = some p := hnew
    cases hnew
    exact ⟨by rw [if_neg hne], rfl, rfl, rfl⟩
  · intro data p hpos hnew
    have hlen : 8 ≤ data.length := by
      have := congrArg List.length hpos
      simp [pngSignature] at this
      omega
    simp only [Png.new, PngStream.new] at hnew
    rw [hread data hlen] at hnew
    replace hnew : some
        ({ data := data, data_stream := ⟨8⟩, chunk_list := [],
           signature_verified := if data.take 8 = pngSignature then true else false,
           png_signature := pngSignature } : Png) = some p := hnew
    cases hnew
    rw [if_pos hpos]

set_option maxHeartbeats 10000000 in
/-- C6: for a buffer made of the correct 8-byte magic signature, a minimal
header chunk (declared length 13, any width/height/bit-depth bytes, a valid
color-type byte and a valid interlace byte) and a terminal chunk with
declared length 0, decoding succeeds (the loop finishes by decoding the
terminal chunk) and the chunk list holds exactly two records: the header
record first and the terminal record second. -/
theorem C6_minimal_stream (w1 w2 w3 w4 h1 h2 h3 h4 bd cm fm c1 c2 c3 c4 e1 e2 e3 e4 ctb imb : Nat)
    (hct : ctb = 0 ∨ ctb = 2 ∨ ctb = 3 ∨ ctb = 4 ∨ ctb = 6)
    (him : imb = 0 ∨ imb = 1) :
    ∃ p : Png,
      Png.new ([137, 80, 78, 71, 13, 10, 26, 10,
        0, 0, 0, 13, 73, 72, 68, 82,
        w1, w2, w3, w4, h1, h2, h3, h4, bd, ctb, cm, fm, imb, c1, c2, c3, c4,
        0, 0, 0, 0, 73, 69, 78, 68, e1, e2, e3, e4]) = some p ∧
      ((get_all_chunks 2) p).1 = .ok true ∧
      ∃ (hdr : IDHRChunk) (iend : IENDChunk),
        ((get_all_chunks 2) p).2.chunk_list = [Chunk.IDHR hdr, Chunk.IEND iend] := by
  rcases hct with rfl | rfl | rfl | rfl | rfl <;> rcases him with rfl | rfl <;>
    refine ⟨⟨_, ⟨8⟩, [], true, pngSignature⟩, rfl, ?_, ?_⟩ <;>
      simp [get_all_chunks, decodeStep, dispatchChunk, IDHRChunk.new, IENDChunk.new,
        parse_color_type, parse_interlace_method, chunk_type_map,
        Png.big_endian_u32_eq, Png.get_u8_eq, Png.get_u32_eq, Png.read_bytes_eq,
        Png.add_chunk_apply,
        DecodeM.bind_apply, DecodeM.pure_apply, DecodeM.throw_apply, Png.adv] <;>
      exact ⟨_, _, rfl⟩

/-- Witness for C6 at a concrete minimal stream (1×1, bit depth 8,
grayscale, no interlace). -/
theorem C6_witness :
    ∃ p : Png,
      Png.new ([137, 80, 78, 71, 13, 10, 26, 10,
        0, 0, 0, 13, 73, 72, 68, 82,
        0, 0, 0, 1, 0, 0, 0, 1, 8, 0, 0, 0, 0, 1, 2, 3, 4,
        0, 0, 0, 0, 73, 69, 78, 68, 5, 6, 7, 8]) = some p ∧
      ((get_all_chunks 2) p).1 = .ok true ∧
      ∃ (hdr : IDHRChunk) (iend : IENDChunk),
        ((get_all_chunks 2) p).2.chunk_list = [Chunk.IDHR hdr, Chunk.IEND iend] :=
  C6_minimal_stream 0 0 0 1 0 0 0 1 8 0 0 1 2 3 4 5 6 7 8 0 0 (Or.inl rfl) (Or.inl rfl)

/-- Witness for C9: the altered-signature buffer yields an unverified
session positioned after the 8 signature bytes. -/
theorem C9_witness :
    pngC9.signature_verified = false ∧ pngC9.data_stream.sequential_counter = 8 ∧
      pngC9.data = badSigBuf ∧ pngC9.chunk_list = [] :=
  C9_signature_flag.1 badSigBuf pngC9 (by decide) (by decide) rfl
